import Mathlib

/-!
Verification of the LinkedIn engagement sync service
(services/linkedinSync.js, routes/sync.js, migrations/001_create_engagement_tables.sql)
against its natural-language specification.

The JavaScript service is shallowly embedded: the SQL tables become lists of
rows inside a `DB` record, each network response becomes an oracle field of an
`Env` record (an `Except` models a JS promise that may reject), and JS
truthiness coercions (`x || null`, `x ? e : null`) are modelled explicitly.
Timestamps are integers (epoch milliseconds).
-/

/-- A row of `dbo.AdminTokens` for `tokenType = "linkedin_admin"`
(migrations/002, read and written by `getAdminToken` / `refreshAdminToken`). -/
structure AdminToken where
  accessToken : String
  refreshToken : Option String
  expiresAt : Int
  updatedAt : Int
deriving Repr, DecidableEq

/-- A row of `dbo.LinkedInPosts` as written by `upsertPost`. -/
structure PostRow where
  postId : String
  text : Option String
  author : Option String
  visibility : Option String
  publishedAt : Option Int
  syncedAt : Int
deriving Repr, DecidableEq

/-- A row of `dbo.PostEngagements` as written by `upsertEngagement`
(migrations/001: id IDENTITY, natural key `(postId, userSub, engagementType,
reactionTypeKey)` with `reactionTypeKey AS ISNULL(reactionType, empty-string)`). -/
structure EngRow where
  postId : String
  userSub : String
  engagementType : String
  reactionType : Option String
  commentText : Option String
  engagedAt : Option Int
  syncedAt : Int
deriving Repr, DecidableEq

/-- A row of `dbo.SyncLog` (migrations/001). -/
structure SyncLogRow where
  id : Nat
  status : String
  postsProcessed : Nat
  engagementsFound : Nat
  errorMessage : Option String
  startedAt : Int
  completedAt : Option Int
deriving Repr, DecidableEq

/-- The relational store: the tables touched by the sync service.
`users` holds the `sub` column of `dbo.users`; `nextLogId` models the
IDENTITY seed of `dbo.SyncLog`. -/
structure DB where
  adminTokens : Option AdminToken
  users : List String
  posts : List PostRow
  engagements : List EngRow
  syncLogs : List SyncLogRow
  nextLogId : Nat
deriving Repr, DecidableEq

/-- Body of a successful token-refresh response from the OAuth server
(`data.access_token`, `data.refresh_token`, `data.expires_in`). -/
structure RefreshData where
  access_token : String
  refresh_token : Option String
  expires_in : Int
deriving Repr, DecidableEq

/-- A raw post element returned by the posts listing API (or a synthetic
mock post): the fields read by `upsertPost` and the per-post loop. -/
structure PostEv where
  id : String
  commentary : Option String
  text : Option String
  author : Option String
  visibility : Option String
  publishedAt : Option Int
deriving Repr, DecidableEq

/-- A raw reaction element: `actor`, `reactionType`, `created?.time`. -/
structure ReactionEv where
  actor : String
  reactionType : Option String
  createdTime : Option Int
deriving Repr, DecidableEq

/-- A raw comment element: `actor`, `message?.text`, `created?.time`. -/
structure CommentEv where
  actor : String
  messageText : Option String
  createdTime : Option Int
deriving Repr, DecidableEq

/-- JSON body of the posts listing response; `elements = none` models a body
whose `elements` field is missing or not an array. -/
structure PostsBody where
  elements : Option (List PostEv)
deriving Repr, DecidableEq

/-- JSON body of a reactions response. -/
structure ReactionsBody where
  elements : Option (List ReactionEv)
deriving Repr, DecidableEq

/-- JSON body of a comments response. -/
structure CommentsBody where
  elements : Option (List CommentEv)
deriving Repr, DecidableEq

/-- A synthetic engagement produced by `generateMockData(...).getEngagements`. -/
structure MockEng where
  type : String
  actor : String
  reactionType : Option String
  text : Option String
  createdAt : Int
deriving Repr, DecidableEq

/-- Ambient environment of one invocation: configuration (env vars), the
clock, and oracles for every external effect.  Each HTTP response is an
`Except String` (a rejected promise carries the error message); the
`postWriteFail` / `engWriteFail` oracles model the SQL driver throwing on an
upsert (a `some msg` makes that upsert reject with `msg`); `mockEngagements`
models the `Math.random` draws of mock mode as a function of the post id and
the user list. -/
structure Env where
  mockMode : Bool
  postClientId : Option String
  postClientSecret : Option String
  orgUrn : String
  now : Int
  refreshResponse : Except String RefreshData
  postsResponse : Except String PostsBody
  reactionsResponse : String → Except String ReactionsBody
  commentsResponse : String → Except String CommentsBody
  postWriteFail : String → Option String
  engWriteFail : String → String → String → Option String
  mockEngagements : String → List String → List MockEng

/-- JS truthiness of an optional string: `null`/`undefined` and `""` are falsy. -/
def truthyStr : Option String → Bool
  | some s => !(s == "")
  | none => false

/-- JS `a || b` on optional strings (`""` and `null` fall through to `b`). -/
def jsOrStr : Option String → Option String → Option String
  | some s, b => if s == "" then b else some s
  | none, b => b

/-- JS `x || null` on an optional string: normalizes `""` to `null`. -/
def normFalsy (o : Option String) : Option String := jsOrStr o none

/-- JS `t ? new Date(t) : null` on an optional number: `0` is falsy. -/
def jsOrNullInt : Option Int → Option Int
  | some t => if t == 0 then none else some t
  | none => none

/-- `hasAdminTokenConfigured`: `!!(POST_CLIENT_ID && POST_CLIENT_SECRET)`. -/
def hasAdminTokenConfigured (env : Env) : Bool :=
  truthyStr env.postClientId && truthyStr env.postClientSecret

/-- `refreshAdminToken(refreshToken)`: POST the refresh grant, then UPDATE the
stored row in place (`refreshToken = data.refresh_token || refreshToken`,
`expiresAt = Date.now() + expires_in * 1000`, `updatedAt = SYSDATETIMEOFFSET()`)
and return `data.access_token`.  The result triple is
(outcome, store after the call, number of network calls made). -/
def refreshAdminToken (env : Env) (db : DB) (refreshToken : String) :
    Except String String × DB × Nat :=
  match env.refreshResponse with
  | .error e => (.error e, db, 1)
  | .ok data =>
    let tok : AdminToken :=
      { accessToken := data.access_token
        refreshToken := jsOrStr data.refresh_token (some refreshToken)
        expiresAt := env.now + data.expires_in * 1000
        updatedAt := env.now }
    (.ok data.access_token, { db with adminTokens := some tok }, 1)

/-- `getAdminToken()`: read the stored credential; throw if absent; if the
expiry is in the past, refresh when a (truthy) refresh token exists, else
throw; otherwise return the cached access token.  The result triple is
(outcome, store after the call, number of network calls made). -/
def getAdminToken (env : Env) (db : DB) : Except String String × DB × Nat :=
  match db.adminTokens with
  | none =>
    (.error "No admin token found. Please authorize at /admin/linkedin/authorize", db, 0)
  | some token =>
    if token.expiresAt < env.now then
      if truthyStr token.refreshToken then
        refreshAdminToken env db (token.refreshToken.getD "")
      else
        (.error "Admin token expired. Please re-authorize at /admin/linkedin/authorize", db, 0)
    else
      (.ok token.accessToken, db, 0)

/-- Environment for the `getAdminToken_refreshes` instance: the refresh
response is present and omits a new refresh token. -/
def envC5 : Env :=
  { mockMode := false, postClientId := some "id", postClientSecret := some "sec"
    orgUrn := "urn:li:organization:30474", now := 1000
    refreshResponse := .ok { access_token := "newTok", refresh_token := none,
                             expires_in := 60 }
    postsResponse := .error "unused"
    reactionsResponse := fun _ => .error "unused"
    commentsResponse := fun _ => .error "unused"
    postWriteFail := fun _ => none
    engWriteFail := fun _ _ _ => none
    mockEngagements := fun _ _ => [] }

/-- Store for the `getAdminToken_refreshes` instance: a credential expired
one tick before `envC5.now`, with a refresh token. -/
def dbC5 : DB :=
  { adminTokens := some { accessToken := "oldTok", refreshToken := some "refTok",
                          expiresAt := 999, updatedAt := 0 }
    users := [], posts := [], engagements := [], syncLogs := [], nextLogId := 1 }


/-- `fetchPosts(token)`: GET the posts listing; a rejected request propagates,
a body without an `elements` array yields `[]`. -/
def fetchPosts (env : Env) : Except String (List PostEv) :=
  match env.postsResponse with
  | .error e => .error e
  | .ok body => .ok (body.elements.getD [])

/-- `fetchReactions(token, postUrn)`: GET the reactions of one post; any
rejection is caught and yields `[]`; so does a body without `elements`. -/
def fetchReactions (env : Env) (postUrn : String) : List ReactionEv :=
  match env.reactionsResponse postUrn with
  | .error _ => []
  | .ok body => body.elements.getD []

/-- `fetchComments(token, postUrn)`: GET the comments of one post; any
rejection is caught and yields `[]`; so does a body without `elements`. -/
def fetchComments (env : Env) (postUrn : String) : List CommentEv :=
  match env.commentsResponse postUrn with
  | .error _ => []
  | .ok body => body.elements.getD []

/-- `getEmployeeUrns(pool)`: the `sub` column of `dbo.users` (a JS `Set`,
used only through membership tests). -/
def getEmployeeUrns (db : DB) : List String := db.users

/-- `upsertPost(pool, post)`: MERGE into `dbo.LinkedInPosts` keyed on
`postId`; when matched, update `text`, `author`, `visibility`, `publishedAt`
and refresh `syncedAt`; otherwise insert. -/
def upsertPost (now : Int) (db : DB) (post : PostEv) : DB :=
  let text := normFalsy (jsOrStr post.commentary post.text)
  let author := normFalsy post.author
  let visibility := normFalsy post.visibility
  let publishedAt := jsOrNullInt post.publishedAt
  if db.posts.any (fun r => r.postId == post.id) then
    { db with posts := db.posts.map (fun r =>
        if r.postId == post.id then
          { r with text := text, author := author, visibility := visibility,
                   publishedAt := publishedAt, syncedAt := now }
        else r) }
  else
    { db with posts := db.posts ++
        [{ postId := post.id, text := text, author := author, visibility := visibility,
           publishedAt := publishedAt, syncedAt := now }] }

/-- The engagement natural key: `(postId, userSub, engagementType,
ISNULL(reactionType, empty-string))`, as in the MERGE condition and the computed
`reactionTypeKey` column behind `UQ_PostEngagement`. -/
def engKey (r : EngRow) : String × String × String × String :=
  (r.postId, r.userSub, r.engagementType, r.reactionType.getD "")

/-- `upsertEngagement(pool, postId, userSub, type, reactionType, commentText,
engagedAt)`: normalize falsy `reactionType` / `commentText` to null, MERGE into
`dbo.PostEngagements` on the natural key; when matched, update `commentText`,
`engagedAt` and refresh `syncedAt`; otherwise insert. -/
def upsertEngagement (now : Int) (db : DB) (postId userSub ty : String)
    (reactionType commentText : Option String) (engagedAt : Option Int) : DB :=
  let rt := normFalsy reactionType
  let ct := normFalsy commentText
  let ea := jsOrNullInt engagedAt
  let key := (postId, userSub, ty, rt.getD "")
  if db.engagements.any (fun r => engKey r == key) then
    { db with engagements := db.engagements.map (fun r =>
        if engKey r == key then
          { r with commentText := ct, engagedAt := ea, syncedAt := now }
        else r) }
  else
    { db with engagements := db.engagements ++
        [{ postId := postId, userSub := userSub, engagementType := ty,
           reactionType := rt, commentText := ct, engagedAt := ea, syncedAt := now }] }

/-- Number of rows of the engagement table with a given natural key. -/
def countEngKey (db : DB) (k : String × String × String × String) : Nat :=
  db.engagements.countP (fun r => engKey r == k)

/-- Number of rows of the post table with a given post id. -/
def countPostId (db : DB) (pid : String) : Nat :=
  db.posts.countP (fun r => r.postId == pid)


/-- Result of one engagement-processing loop (the inner `for` over reactions
or comments of one post): the store and the `engagementsFound` counter, or the
state at the moment an upsert rejected. -/
inductive EngStep where
  | ok (db : DB) (found : Nat)
  | fail (db : DB) (found : Nat) (msg : String)
deriving Repr

/-- Result of the per-post loop of `runFullSync` (store, posts counter,
engagements counter, or the state at the moment an exception escaped). -/
inductive RunStep where
  | ok (db : DB) (posts found : Nat)
  | fail (db : DB) (posts found : Nat) (msg : String)
deriving Repr

/-- The reactions loop of `runFullSync` (live mode): for each fetched
reaction whose `actor` is an employee urn, upsert a `"REACTION"` engagement
and bump the counter.  A rejecting upsert escapes the per-post loop. -/
def processReactions (env : Env) (emp : List String) (postId : String) :
    List ReactionEv → DB → Nat → EngStep
  | [], db, e => .ok db e
  | r :: rest, db, e =>
    if emp.contains r.actor then
      match env.engWriteFail postId r.actor "REACTION" with
      | some msg => .fail db e msg
      | none =>
        processReactions env emp postId rest
          (upsertEngagement env.now db postId r.actor "REACTION" r.reactionType none
            r.createdTime)
          (e + 1)
    else
      processReactions env emp postId rest db e

/-- The comments loop of `runFullSync` (live mode): for each fetched comment
whose `actor` is an employee urn, upsert a `"COMMENT"` engagement and bump
the counter. -/
def processComments (env : Env) (emp : List String) (postId : String) :
    List CommentEv → DB → Nat → EngStep
  | [], db, e => .ok db e
  | c :: rest, db, e =>
    if emp.contains c.actor then
      match env.engWriteFail postId c.actor "COMMENT" with
      | some msg => .fail db e msg
      | none =>
        processComments env emp postId rest
          (upsertEngagement env.now db postId c.actor "COMMENT" none c.messageText
            c.createdTime)
          (e + 1)
    else
      processComments env emp postId rest db e

/-- The engagement loop of `runFullSync` (mock mode): upsert every synthetic
engagement of one mock post (no identity filtering in this branch). -/
def processMockEngs (env : Env) (postId : String) :
    List MockEng → DB → Nat → EngStep
  | [], db, e => .ok db e
  | eng :: rest, db, e =>
    match env.engWriteFail postId eng.actor eng.type with
    | some msg => .fail db e msg
    | none =>
      processMockEngs env postId rest
        (upsertEngagement env.now db postId eng.actor eng.type eng.reactionType eng.text
          (some eng.createdAt))
        (e + 1)

/-- The per-post loop of `runFullSync` in live mode: upsert the post, count
it, then process its reactions and its comments. -/
def processLivePosts (env : Env) (emp : List String) :
    List PostEv → DB → Nat → Nat → RunStep
  | [], db, p, e => .ok db p e
  | post :: rest, db, p, e =>
    match env.postWriteFail post.id with
    | some msg => .fail db p e msg
    | none =>
      let db1 := upsertPost env.now db post
      match processReactions env emp post.id (fetchReactions env post.id) db1 e with
      | .fail db2 e2 msg => .fail db2 (p + 1) e2 msg
      | .ok db2 e2 =>
        match processComments env emp post.id (fetchComments env post.id) db2 e2 with
        | .fail db3 e3 msg => .fail db3 (p + 1) e3 msg
        | .ok db3 e3 => processLivePosts env emp rest db3 (p + 1) e3

/-- The three fixed synthetic posts of `generateMockData`. -/
def mockPosts (env : Env) : List PostEv :=
  [ { id := "urn:li:share:mock001"
      commentary := some "Excited to announce our latest product launch!"
      text := none, author := some env.orgUrn, visibility := some "PUBLIC"
      publishedAt := some (env.now - 86400000 * 2) },
    { id := "urn:li:share:mock002"
      commentary := some "We\x27re hiring! Join our amazing team."
      text := none, author := some env.orgUrn, visibility := some "PUBLIC"
      publishedAt := some (env.now - 86400000 * 5) },
    { id := "urn:li:share:mock003"
      commentary := some "Great quarter results - thank you team!"
      text := none, author := some env.orgUrn, visibility := some "PUBLIC"
      publishedAt := some (env.now - 86400000 * 10) } ]

/-- The per-post loop of `runFullSync` in mock mode: upsert each synthetic
post, then upsert its synthetic engagements. -/
def processMockPosts (env : Env) (users : List String) :
    List PostEv → DB → Nat → Nat → RunStep
  | [], db, p, e => .ok db p e
  | post :: rest, db, p, e =>
    match env.postWriteFail post.id with
    | some msg => .fail db p e msg
    | none =>
      let db1 := upsertPost env.now db post
      match processMockEngs env post.id (env.mockEngagements post.id users) db1 e with
      | .fail db2 e2 msg => .fail db2 (p + 1) e2 msg
      | .ok db2 e2 => processMockPosts env users rest db2 (p + 1) e2

/-- `createSyncLog(pool, status)`: INSERT a `dbo.SyncLog` row (IDENTITY id,
zero counts, `startedAt` defaulted, `completedAt` null) and return its id. -/
def createSyncLog (now : Int) (db : DB) (status : String) : Nat × DB :=
  let id := db.nextLogId
  (id,
   { db with
       syncLogs := db.syncLogs ++
         [{ id := id, status := status, postsProcessed := 0, engagementsFound := 0,
            errorMessage := none, startedAt := now, completedAt := none }]
       nextLogId := id + 1 })

/-- `updateSyncLog(pool, logId, status, postsProcessed, engagementsFound,
errorMessage)`: UPDATE the row(s) with the given id, setting the terminal
status, the counts, `errorMessage || null` and `completedAt`. -/
def updateSyncLog (now : Int) (db : DB) (logId : Nat) (status : String)
    (p e : Nat) (errMsg : Option String) : DB :=
  { db with
      syncLogs := db.syncLogs.map (fun r =>
        if r.id == logId then
          { r with status := status, postsProcessed := p, engagementsFound := e,
                   errorMessage := normFalsy errMsg, completedAt := some now }
        else r) }

/-- The `try` block of `runFullSync`: load the identity snapshot, branch on
mode, and run the per-post loop; a thrown error becomes a `.fail` carrying
the counters accumulated so far. -/
def runBody (env : Env) (db : DB) : RunStep :=
  let emp := getEmployeeUrns db
  if env.mockMode then
    processMockPosts env db.users (mockPosts env) db 0 0
  else if !(hasAdminTokenConfigured env) then
    .fail db 0 0 "LinkedIn API credentials not configured"
  else
    match getAdminToken env db with
    | (.error msg, db1, _) => .fail db1 0 0 msg
    | (.ok _, db1, _) =>
      match fetchPosts env with
      | .error msg => .fail db1 0 0 msg
      | .ok posts => processLivePosts env emp posts db1 0 0

/-- The structured result returned by `runFullSync` to its caller. -/
structure RunResult where
  success : Bool
  error : Option String
  postsProcessed : Nat
  engagementsFound : Nat
deriving Repr, DecidableEq

/-- `runFullSync()`: create the Run Log entry in `"RUNNING"` state, execute
the body, then mark the entry `"SUCCESS"` or (from the `catch` block)
`"FAILED"` with the counters accumulated so far, returning the matching
structured result. -/
def runFullSync (env : Env) (db : DB) : RunResult × DB :=
  let step := createSyncLog env.now db "RUNNING"
  match runBody env step.2 with
  | .ok db1 p e =>
    let db2 := updateSyncLog env.now db1 step.1 "SUCCESS" p e none
    ({ success := true, error := none, postsProcessed := p, engagementsFound := e }, db2)
  | .fail db1 p e msg =>
    let db2 := updateSyncLog env.now db1 step.1 "FAILED" p e (some msg)
    ({ success := false, error := some msg, postsProcessed := p, engagementsFound := e }, db2)

/-- The JSON answer of `POST /api/sync/trigger` (routes/sync.js). -/
structure TriggerResponse where
  status : Nat
  ok : Option Bool
  message : Option String
  error : Option String
  postsProcessed : Option Nat
  engagementsFound : Option Nat
  mockMode : Option Bool
deriving Repr, DecidableEq

/-- The `POST /api/sync/trigger` handler: reject with 400 when live mode has
no credentials configured, otherwise run a full sync and report its result. -/
def syncTriggerRoute (env : Env) (db : DB) : TriggerResponse × DB :=
  if !env.mockMode && !(hasAdminTokenConfigured env) then
    ({ status := 400, ok := none, message := none
       error := some "LinkedIn API credentials not configured. Enable LINKEDIN_MOCK_MODE=true for testing."
       postsProcessed := none, engagementsFound := none, mockMode := none }, db)
  else
    let out := runFullSync env db
    if out.1.success then
      ({ status := 200, ok := some true, message := some "Sync completed successfully"
         error := none, postsProcessed := some out.1.postsProcessed
         engagementsFound := some out.1.engagementsFound, mockMode := some env.mockMode },
       out.2)
    else
      ({ status := 500, ok := some false, message := none, error := out.1.error
         postsProcessed := some out.1.postsProcessed
         engagementsFound := some out.1.engagementsFound, mockMode := none }, out.2)

/-- Modelled from the spec (4.3 Engagement Matcher): `match(events,
identitySet)` keeps exactly the events whose actor belongs to the identity
set.  The source implements this inline in the per-post loops of
`runFullSync`; this pure filter is the contract those loops are compared
against. -/
def matchSpec {A : Type} (actor : A → String) (events : List A)
    (identitySet : List String) : List A :=
  events.filter (fun ev => identitySet.contains (actor ev))


/-- The WHEN MATCHED branch of the `upsertEngagement` MERGE, as a named
function (definitionally the update lambda inside `upsertEngagement`). -/
def engUpd (key : String × String × String × String) (ct : Option String)
    (ea : Option Int) (now : Int) (r : EngRow) : EngRow :=
  if engKey r == key then
    { r with commentText := ct, engagedAt := ea, syncedAt := now }
  else r

/-- The row inserted by the WHEN NOT MATCHED branch of `upsertEngagement`. -/
def engNew (pid sub ty : String) (rt ct : Option String) (ea : Option Int)
    (now : Int) : EngRow :=
  { postId := pid, userSub := sub, engagementType := ty, reactionType := rt,
    commentText := ct, engagedAt := ea, syncedAt := now }

/-- The WHEN MATCHED branch of the `upsertPost` MERGE, as a named function. -/
def postUpd (pid : String) (t a v : Option String) (pa : Option Int) (now : Int)
    (r : PostRow) : PostRow :=
  if r.postId == pid then
    { r with text := t, author := a, visibility := v, publishedAt := pa, syncedAt := now }
  else r

/-- The row inserted by the WHEN NOT MATCHED branch of `upsertPost`. -/
def postNew (post : PostEv) (now : Int) : PostRow :=
  { postId := post.id, text := normFalsy (jsOrStr post.commentary post.text),
    author := normFalsy post.author, visibility := normFalsy post.visibility,
    publishedAt := jsOrNullInt post.publishedAt, syncedAt := now }


/-- The store carried by an `EngStep`, whether the loop finished or threw. -/
def EngStep.db : EngStep → DB
  | .ok db _ => db
  | .fail db _ _ => db

/-- The store carried by a `RunStep`, whether the run body finished or threw. -/
def RunStep.db : RunStep → DB
  | .ok db _ _ => db
  | .fail db _ _ _ => db


/-- The Run Log row freshly inserted by `createSyncLog` in RUNNING state. -/
def runningRow (db : DB) (now : Int) : SyncLogRow :=
  { id := db.nextLogId, status := "RUNNING", postsProcessed := 0,
    engagementsFound := 0, errorMessage := none, startedAt := now,
    completedAt := none }

/-- Shared empty store used by the concrete witness instances. -/
def dbEmpty : DB :=
  { adminTokens := none, users := [], posts := [], engagements := [],
    syncLogs := [], nextLogId := 1 }

/-- Shared concrete post used by the concrete witness instances. -/
def postW : PostEv :=
  { id := "urn:li:share:w1", commentary := some "hello", text := none,
    author := some "urn:li:organization:30474", visibility := some "PUBLIC",
    publishedAt := some 10 }

/-- Environment for the `runFullSync_log_terminal` instance: live mode with
no credentials configured, so the run fails fast. -/
def envC1 : Env :=
  { mockMode := false, postClientId := none, postClientSecret := none
    orgUrn := "urn:li:organization:30474", now := 50
    refreshResponse := .error "unused", postsResponse := .error "unused"
    reactionsResponse := fun _ => .error "unused"
    commentsResponse := fun _ => .error "unused"
    postWriteFail := fun _ => none, engWriteFail := fun _ _ _ => none
    mockEngagements := fun _ _ => [] }

/-- First listed post of the `runFullSync_comment_fault_isolated` instance. -/
def postA : PostEv := ⟨"A", some "a-text", none, none, none, some 1⟩

/-- Second listed post (its comment fetch rejects). -/
def postB : PostEv := ⟨"B", some "b-text", none, none, none, some 2⟩

/-- Third listed post. -/
def postC : PostEv := ⟨"C", some "c-text", none, none, none, some 3⟩

/-- Credential of the `runFullSync_comment_fault_isolated` instance. -/
def tokC2 : AdminToken :=
  { accessToken := "tok", refreshToken := none, expiresAt := 200, updatedAt := 0 }

/-- Environment of the `runFullSync_comment_fault_isolated` instance: three
posts; employee reactions on A and B, an employee comment on A, an outsider
comment on C; the comment fetch of B rejects. -/
def envC2 : Env :=
  { mockMode := false, postClientId := some "id", postClientSecret := some "sec"
    orgUrn := "urn:li:organization:30474", now := 100
    refreshResponse := .error "unused"
    postsResponse := .ok { elements := some [postA, postB, postC] }
    reactionsResponse := fun pid =>
      if pid == "A" then .ok { elements := some [⟨"u1", some "LIKE", some 5⟩] }
      else if pid == "B" then .ok { elements := some [⟨"u2", some "CELEBRATE", some 6⟩] }
      else .ok { elements := some [] }
    commentsResponse := fun pid =>
      if pid == "A" then .ok { elements := some [⟨"u1", some "nice", some 7⟩] }
      else if pid == "B" then .error "boom"
      else .ok { elements := some [⟨"outsider", some "hi", some 8⟩] }
    postWriteFail := fun _ => none
    engWriteFail := fun _ _ _ => none
    mockEngagements := fun _ _ => [] }

/-- Store of the `runFullSync_comment_fault_isolated` instance: two internal
users and a valid cached credential. -/
def dbC2 : DB :=
  { adminTokens := some tokC2, users := ["u1", "u2"], posts := [],
    engagements := [], syncLogs := [], nextLogId := 1 }

/-- Environment of the `syncTrigger_not_configured` instance: live mode with
an empty client id and no secret. -/
def envC8 : Env :=
  { mockMode := false, postClientId := some "", postClientSecret := none
    orgUrn := "urn:li:organization:30474", now := 9
    refreshResponse := .error "unused", postsResponse := .error "unused"
    reactionsResponse := fun _ => .error "unused"
    commentsResponse := fun _ => .error "unused"
    postWriteFail := fun _ => none, engWriteFail := fun _ _ _ => none
    mockEngagements := fun _ _ => [] }

/-- Environment of the `runFullSync_no_elements` instance: a successful
posts response with no elements array. -/
def envC9 : Env :=
  { mockMode := false, postClientId := some "id", postClientSecret := some "sec"
    orgUrn := "urn:li:organization:30474", now := 100
    refreshResponse := .error "unused"
    postsResponse := .ok { elements := none }
    reactionsResponse := fun _ => .error "unused"
    commentsResponse := fun _ => .error "unused"
    postWriteFail := fun _ => none, engWriteFail := fun _ _ _ => none
    mockEngagements := fun _ _ => [] }

/-- Store of the `runFullSync_no_elements` instance: a valid cached token. -/
def dbC9 : DB :=
  { adminTokens := some { accessToken := "tok", refreshToken := none,
                          expiresAt := 200, updatedAt := 0 }
    users := ["u1"], posts := [], engagements := [], syncLogs := [], nextLogId := 1 }

/-! ## Theorems -/


/-- Claim C6: the three non-refresh outcomes of `getAdminToken`, plus the
converse of the missing-credential case. -/
theorem getAdminToken_cases (env : Env) (db : DB) :
    (db.adminTokens = none →
      getAdminToken env db =
        (.error "No admin token found. Please authorize at /admin/linkedin/authorize", db, 0)) ∧
    (∀ t, db.adminTokens = some t → t.expiresAt < env.now →
      truthyStr t.refreshToken = false →
      getAdminToken env db =
        (.error "Admin token expired. Please re-authorize at /admin/linkedin/authorize", db, 0)) ∧
    (∀ t, db.adminTokens = some t → ¬ (t.expiresAt < env.now) →
      getAdminToken env db = (.ok t.accessToken, db, 0)) ∧
    (getAdminToken env db =
        (.error "No admin token found. Please authorize at /admin/linkedin/authorize", db, 0) →
      db.adminTokens = none) ∧
    (getAdminToken env db =
        (.error "Admin token expired. Please re-authorize at /admin/linkedin/authorize", db, 0) →
      ∃ t, db.adminTokens = some t ∧ t.expiresAt < env.now ∧
        truthyStr t.refreshToken = false) := by
  refine ⟨?_, ?_, ?_, ?_, ?_⟩
  · intro h; simp [getAdminToken, h]
  · intro t ht hexp hrt
    simp [getAdminToken, ht, hexp, hrt]
  · intro t ht hvalid
    simp [getAdminToken, ht, hvalid]
  · intro h
    cases hdb : db.adminTokens with
    | none => rfl
    | some t =>
      exfalso
      simp only [getAdminToken, hdb] at h
      by_cases hexp : t.expiresAt < env.now
      · simp only [if_pos hexp] at h
        by_cases hrt : truthyStr t.refreshToken
        · simp only [if_pos hrt] at h
          cases hr : env.refreshResponse with
          | error e =>
            simp only [refreshAdminToken, hr] at h
            simpa using congrArg (fun x => x.2.2) h
          | ok data =>
            simp only [refreshAdminToken, hr] at h
            exact absurd (congrArg (fun x => x.1) h) (by simp)
        · simp only [if_neg hrt] at h
          simpa using congrArg (fun x => x.1) h
      · simp only [if_neg hexp] at h
        simpa using congrArg (fun x => x.1) h
  · intro h
    cases hdb : db.adminTokens with
    | none =>
      exfalso
      simp only [getAdminToken, hdb] at h
      simpa using congrArg (fun x => x.1) h
    | some t =>
      refine ⟨t, rfl, ?_, ?_⟩
      all_goals
        simp only [getAdminToken, hdb] at h
        by_cases hexp : t.expiresAt < env.now
      · exact hexp
      · exfalso
        simp only [if_neg hexp] at h
        simpa using congrArg (fun x => x.1) h
      · simp only [if_pos hexp] at h
        by_cases hrt : truthyStr t.refreshToken = true
        · exfalso
          simp only [if_pos hrt] at h
          cases hr : env.refreshResponse with
          | error e =>
            simp only [refreshAdminToken, hr] at h
            simpa using congrArg (fun x => x.2.2) h
          | ok data =>
            simp only [refreshAdminToken, hr] at h
            exact absurd (congrArg (fun x => x.1) h) (by simp)
        · exact Bool.eq_false_iff.mpr hrt
      · exfalso
        simp only [if_neg hexp] at h
        simpa using congrArg (fun x => x.1) h

/-- Concrete instance of `getAdminToken_cases`: an expired credential with no
refresh token fails with the expired message and zero network calls. -/
theorem getAdminToken_cases_witness :
    getAdminToken
      { mockMode := false, postClientId := some "id", postClientSecret := some "sec"
        orgUrn := "urn:li:organization:30474", now := 1000
        refreshResponse := .error "unused"
        postsResponse := .error "unused"
        reactionsResponse := fun _ => .error "unused"
        commentsResponse := fun _ => .error "unused"
        postWriteFail := fun _ => none
        engWriteFail := fun _ _ _ => none
        mockEngagements := fun _ _ => [] }
      { adminTokens := some { accessToken := "tok", refreshToken := none,
                              expiresAt := 999, updatedAt := 0 }
        users := [], posts := [], engagements := [], syncLogs := [], nextLogId := 1 } =
      (.error "Admin token expired. Please re-authorize at /admin/linkedin/authorize",
       { adminTokens := some { accessToken := "tok", refreshToken := none,
                               expiresAt := 999, updatedAt := 0 }
         users := [], posts := [], engagements := [], syncLogs := [], nextLogId := 1 }, 0) :=
  (getAdminToken_cases _ _).2.1
    { accessToken := "tok", refreshToken := none, expiresAt := 999, updatedAt := 0 }
    rfl (by decide) rfl

/-- Claim C5: with a stored credential whose expiry is in the past and a
(truthy) refresh token, `getAdminToken` performs exactly one network exchange,
overwrites the stored credential in place with the new access token and expiry
(refreshing `updatedAt`), returns the new access token, and keeps the old
refresh token whenever the response omits one. -/
theorem getAdminToken_refreshes (env : Env) (db : DB) (t : AdminToken)
    (data : RefreshData)
    (hcred : db.adminTokens = some t)
    (hexp : t.expiresAt < env.now)
    (hrt : truthyStr t.refreshToken = true)
    (hresp : env.refreshResponse = .ok data) :
    getAdminToken env db =
      (.ok data.access_token,
       { db with adminTokens := some {
           accessToken := data.access_token
           refreshToken := jsOrStr data.refresh_token t.refreshToken
           expiresAt := env.now + data.expires_in * 1000
           updatedAt := env.now } },
       1) ∧
    (data.refresh_token = none →
      Option.map AdminToken.refreshToken (getAdminToken env db).2.1.adminTokens =
        some t.refreshToken) := by
  obtain ⟨s, hs⟩ : ∃ s, t.refreshToken = some s := by
    cases h : t.refreshToken with
    | none => rw [h] at hrt; simp [truthyStr] at hrt
    | some s => exact ⟨s, rfl⟩
  have hmain : getAdminToken env db =
      (.ok data.access_token,
       { db with adminTokens := some {
           accessToken := data.access_token
           refreshToken := jsOrStr data.refresh_token t.refreshToken
           expiresAt := env.now + data.expires_in * 1000
           updatedAt := env.now } },
       1) := by
    have hrt2 : truthyStr (some s) = true := by rw [← hs]; exact hrt
    simp only [getAdminToken, hcred, hs, if_pos hexp, hrt2, if_true, refreshAdminToken, hresp,
      Option.getD_some]
  refine ⟨hmain, fun hnone => ?_⟩
  rw [hmain]
  simp [jsOrStr, hnone, hs]

/-- Concrete instance of `getAdminToken_refreshes`: expiry one tick in the
past, refresh response present but omitting a new refresh token; the stored
refresh token is preserved. -/
theorem getAdminToken_refreshes_witness :
    getAdminToken envC5 dbC5 =
      (.ok "newTok",
       { adminTokens := some { accessToken := "newTok", refreshToken := some "refTok",
                               expiresAt := 61000, updatedAt := 1000 }
         users := [], posts := [], engagements := [], syncLogs := [], nextLogId := 1 },
       1) :=
  (getAdminToken_refreshes envC5 dbC5
    { accessToken := "oldTok", refreshToken := some "refTok", expiresAt := 999, updatedAt := 0 }
    { access_token := "newTok", refresh_token := none, expires_in := 60 }
    rfl (by decide) (by decide) rfl).1


/-- `upsertEngagement`, restated through `engUpd` / `engNew` (definitional). -/
theorem upsertEngagement_eq (now : Int) (db : DB) (pid sub ty : String)
    (rtA ctA : Option String) (eaA : Option Int) :
    upsertEngagement now db pid sub ty rtA ctA eaA =
      (if db.engagements.any
          (fun r => engKey r == (pid, sub, ty, (normFalsy rtA).getD "")) then
        { db with engagements := db.engagements.map
                                   (engUpd (pid, sub, ty, (normFalsy rtA).getD "")
                                     (normFalsy ctA) (jsOrNullInt eaA) now) }
      else
        { db with engagements := db.engagements ++
            [engNew pid sub ty (normFalsy rtA) (normFalsy ctA) (jsOrNullInt eaA) now] }) :=
  rfl

/-- `upsertPost`, restated through `postUpd` / `postNew` (definitional). -/
theorem upsertPost_eq (now : Int) (db : DB) (post : PostEv) :
    upsertPost now db post =
      (if db.posts.any (fun r => r.postId == post.id) then
        { db with posts := db.posts.map
                             (postUpd post.id (normFalsy (jsOrStr post.commentary post.text))
                               (normFalsy post.author) (normFalsy post.visibility)
                               (jsOrNullInt post.publishedAt) now) }
      else
        { db with posts := db.posts ++ [postNew post now] }) :=
  rfl

/-- The WHEN MATCHED update does not change the engagement natural key. -/
theorem engKey_engUpd (key : String × String × String × String) (ct : Option String)
    (ea : Option Int) (now : Int) (r : EngRow) :
    engKey (engUpd key ct ea now r) = engKey r := by
  unfold engUpd
  split <;> rfl

/-- The WHEN MATCHED update does not change the post key. -/
theorem postId_postUpd (pid : String) (t a v : Option String) (pa : Option Int)
    (now : Int) (r : PostRow) :
    (postUpd pid t a v pa now r).postId = r.postId := by
  unfold postUpd
  split <;> rfl

/-- Applying the same WHEN MATCHED update twice equals applying it once. -/
theorem engUpd_engUpd (key : String × String × String × String) (ct : Option String)
    (ea : Option Int) (now : Int) (r : EngRow) :
    engUpd key ct ea now (engUpd key ct ea now r) = engUpd key ct ea now r := by
  unfold engUpd
  cases h : engKey r == key with
  | false => simp [h]
  | true =>
    have h2 : (engKey { r with commentText := ct, engagedAt := ea, syncedAt := now } == key)
        = true := h
    simp only [h, h2, if_true]

/-- Applying the same post update twice equals applying it once. -/
theorem postUpd_postUpd (pid : String) (t a v : Option String) (pa : Option Int)
    (now : Int) (r : PostRow) :
    postUpd pid t a v pa now (postUpd pid t a v pa now r) = postUpd pid t a v pa now r := by
  unfold postUpd
  cases h : r.postId == pid with
  | false => simp [h]
  | true =>
    have h2 : (({ r with text := t, author := a, visibility := v, publishedAt := pa, syncedAt := now } : PostRow).postId == pid) = true := h
    simp only [h, h2, if_true]

/-- Mapping the WHEN MATCHED update over the table does not change how many
rows carry any given engagement key. -/
theorem countP_map_engUpd (l : List EngRow) (k key : String × String × String × String)
    (ct : Option String) (ea : Option Int) (now : Int) :
    (l.map (engUpd key ct ea now)).countP (fun r => engKey r == k)
      = l.countP (fun r => engKey r == k) := by
  induction l with
  | nil => rfl
  | cons a t ih =>
    simp only [List.map_cons, List.countP_cons, ih, engKey_engUpd]

/-- Mapping the post update over the table does not change how many rows
carry any given post id. -/
theorem countP_map_postUpd (l : List PostRow) (k pid : String) (t a v : Option String)
    (pa : Option Int) (now : Int) :
    (l.map (postUpd pid t a v pa now)).countP (fun r => r.postId == k)
      = l.countP (fun r => r.postId == k) := by
  induction l with
  | nil => rfl
  | cons x xs ih =>
    simp only [List.map_cons, List.countP_cons, ih, postId_postUpd]

/-- Row count of an engagement key after replacing the engagement table. -/
theorem countEngKey_set (db : DB) (l : List EngRow) (k : String × String × String × String) :
    countEngKey { db with engagements := l } k = l.countP (fun r => engKey r == k) :=
  rfl

/-- Row count of a post id after replacing the post table. -/
theorem countPostId_set (db : DB) (l : List PostRow) (k : String) :
    countPostId { db with posts := l } k = l.countP (fun r => r.postId == k) :=
  rfl

/-- After an upsert, exactly one engagement row carries the written key
(provided the unique index held before: at most one row with that key). -/
theorem countEngKey_upsert_self (now : Int) (db : DB) (pid sub ty : String)
    (rt ct : Option String) (ea : Option Int)
    (h : countEngKey db (pid, sub, ty, (normFalsy rt).getD "") ≤ 1) :
    countEngKey (upsertEngagement now db pid sub ty rt ct ea)
      (pid, sub, ty, (normFalsy rt).getD "") = 1 := by
  rw [upsertEngagement_eq]
  by_cases hany : db.engagements.any
      (fun r => engKey r == (pid, sub, ty, (normFalsy rt).getD "")) = true
  · rw [if_pos hany]
    have hpos : 0 < countEngKey db (pid, sub, ty, (normFalsy rt).getD "") := by
      rw [countEngKey, List.countP_pos_iff]
      exact List.any_eq_true.mp hany
    rw [countEngKey] at h hpos
    rw [countEngKey_set, countP_map_engUpd]
    omega
  · rw [if_neg hany]
    have h0 : db.engagements.countP
        (fun r => engKey r == (pid, sub, ty, (normFalsy rt).getD "")) = 0 := by
      rw [List.countP_eq_zero]
      intro a ha hpa
      exact hany (List.any_eq_true.mpr ⟨a, ha, hpa⟩)
    rw [countEngKey_set, List.countP_append, h0]
    simp [engKey, engNew]

/-- An upsert leaves the row count of every other engagement key unchanged. -/
theorem countEngKey_upsert_other (now : Int) (db : DB) (pid sub ty : String)
    (rt ct : Option String) (ea : Option Int)
    (k : String × String × String × String)
    (hk : k ≠ (pid, sub, ty, (normFalsy rt).getD "")) :
    countEngKey (upsertEngagement now db pid sub ty rt ct ea) k = countEngKey db k := by
  rw [upsertEngagement_eq]
  by_cases hany : db.engagements.any
      (fun r => engKey r == (pid, sub, ty, (normFalsy rt).getD "")) = true
  · rw [if_pos hany]
    rw [countEngKey_set, countP_map_engUpd]
    rfl
  · rw [if_neg hany]
    have hnew : (engKey (engNew pid sub ty (normFalsy rt) (normFalsy ct)
        (jsOrNullInt ea) now) == k) = false := by
      have hkey : engKey (engNew pid sub ty (normFalsy rt) (normFalsy ct)
          (jsOrNullInt ea) now) = (pid, sub, ty, (normFalsy rt).getD "") := rfl
      rw [hkey]
      exact beq_eq_false_iff_ne.mpr (Ne.symm hk)
    rw [countEngKey_set, List.countP_append]
    simp [List.countP_cons, hnew]
    rfl

/-- After an upsert, exactly one post row carries the written post id
(provided at most one row carried it before). -/
theorem countPostId_upsert_self (now : Int) (db : DB) (post : PostEv)
    (h : countPostId db post.id ≤ 1) :
    countPostId (upsertPost now db post) post.id = 1 := by
  rw [upsertPost_eq]
  by_cases hany : db.posts.any (fun r => r.postId == post.id) = true
  · rw [if_pos hany]
    have hpos : 0 < countPostId db post.id := by
      rw [countPostId, List.countP_pos_iff]
      exact List.any_eq_true.mp hany
    rw [countPostId] at h hpos
    rw [countPostId_set, countP_map_postUpd]
    omega
  · rw [if_neg hany]
    have h0 : db.posts.countP (fun r => r.postId == post.id) = 0 := by
      rw [List.countP_eq_zero]
      intro a ha hpa
      exact hany (List.any_eq_true.mpr ⟨a, ha, hpa⟩)
    rw [countPostId_set, List.countP_append, h0]
    simp [postNew]

/-- Repeating the identical `upsertEngagement` call leaves the store as it
was after the first call. -/
theorem upsertEngagement_idem (now : Int) (db : DB) (pid sub ty : String)
    (rt ct : Option String) (ea : Option Int) :
    upsertEngagement now (upsertEngagement now db pid sub ty rt ct ea) pid sub ty rt ct ea
      = upsertEngagement now db pid sub ty rt ct ea := by
  by_cases hany : db.engagements.any
      (fun r => engKey r == (pid, sub, ty, (normFalsy rt).getD "")) = true
  · have h1 : upsertEngagement now db pid sub ty rt ct ea =
        { db with engagements := db.engagements.map
                                   (engUpd (pid, sub, ty, (normFalsy rt).getD "")
                                     (normFalsy ct) (jsOrNullInt ea) now) } := by
      rw [upsertEngagement_eq, if_pos hany]
    rw [h1, upsertEngagement_eq]
    have hany2 : (db.engagements.map
        (engUpd (pid, sub, ty, (normFalsy rt).getD "") (normFalsy ct)
          (jsOrNullInt ea) now)).any
        (fun r => engKey r == (pid, sub, ty, (normFalsy rt).getD "")) = true := by
      rw [List.any_map]
      rcases List.any_eq_true.mp hany with ⟨a, ha, hpa⟩
      exact List.any_eq_true.mpr ⟨a, ha, by simpa [Function.comp, engKey_engUpd] using hpa⟩
    rw [if_pos hany2]
    congr 1
    rw [List.map_map]
    exact List.map_congr_left (fun r _ => engUpd_engUpd _ _ _ _ r)
  · have h1 : upsertEngagement now db pid sub ty rt ct ea =
        { db with engagements := db.engagements ++
            [engNew pid sub ty (normFalsy rt) (normFalsy ct) (jsOrNullInt ea) now] } := by
      rw [upsertEngagement_eq, if_neg hany]
    rw [h1, upsertEngagement_eq]
    have hkeynew : engKey (engNew pid sub ty (normFalsy rt) (normFalsy ct)
        (jsOrNullInt ea) now) = (pid, sub, ty, (normFalsy rt).getD "") := rfl
    have hany2 : (db.engagements ++
        [engNew pid sub ty (normFalsy rt) (normFalsy ct) (jsOrNullInt ea) now]).any
        (fun r => engKey r == (pid, sub, ty, (normFalsy rt).getD "")) = true := by
      refine List.any_eq_true.mpr ⟨_, List.mem_append_right _ (List.mem_singleton_self _), ?_⟩
      rw [hkeynew]
      exact beq_self_eq_true _
    rw [if_pos hany2]
    congr 1
    rw [List.map_append]
    have hold : db.engagements.map (engUpd (pid, sub, ty, (normFalsy rt).getD "")
        (normFalsy ct) (jsOrNullInt ea) now) = db.engagements := by
      have hall := List.any_eq_false.mp (Bool.eq_false_iff.mpr hany)
      calc db.engagements.map (engUpd (pid, sub, ty, (normFalsy rt).getD "")
              (normFalsy ct) (jsOrNullInt ea) now)
          = db.engagements.map id := by
            refine List.map_congr_left (fun r hr => ?_)
            have hne := hall r hr
            unfold engUpd
            rw [if_neg hne]
            rfl
        _ = db.engagements := List.map_id _
    rw [hold]
    have hupd : engUpd (pid, sub, ty, (normFalsy rt).getD "") (normFalsy ct)
        (jsOrNullInt ea) now (engNew pid sub ty (normFalsy rt) (normFalsy ct)
          (jsOrNullInt ea) now) = engNew pid sub ty (normFalsy rt) (normFalsy ct)
          (jsOrNullInt ea) now := by
      unfold engUpd
      rw [if_pos (by rw [hkeynew]; exact beq_self_eq_true _)]
      rfl
    rw [List.map_singleton, hupd]

/-- Repeating the identical `upsertPost` call leaves the store as it was
after the first call. -/
theorem upsertPost_idem (now : Int) (db : DB) (post : PostEv) :
    upsertPost now (upsertPost now db post) post = upsertPost now db post := by
  by_cases hany : db.posts.any (fun r => r.postId == post.id) = true
  · have h1 : upsertPost now db post =
        { db with posts := db.posts.map
                             (postUpd post.id (normFalsy (jsOrStr post.commentary post.text))
                               (normFalsy post.author) (normFalsy post.visibility)
                               (jsOrNullInt post.publishedAt) now) } := by
      rw [upsertPost_eq, if_pos hany]
    rw [h1, upsertPost_eq]
    have hany2 : (db.posts.map (postUpd post.id (normFalsy (jsOrStr post.commentary post.text))
        (normFalsy post.author) (normFalsy post.visibility)
        (jsOrNullInt post.publishedAt) now)).any (fun r => r.postId == post.id) = true := by
      rw [List.any_map]
      rcases List.any_eq_true.mp hany with ⟨a, ha, hpa⟩
      exact List.any_eq_true.mpr ⟨a, ha, by simpa [Function.comp, postId_postUpd] using hpa⟩
    rw [if_pos hany2]
    congr 1
    rw [List.map_map]
    exact List.map_congr_left (fun r _ => postUpd_postUpd _ _ _ _ _ _ r)
  · have h1 : upsertPost now db post =
        { db with posts := db.posts ++ [postNew post now] } := by
      rw [upsertPost_eq, if_neg hany]
    rw [h1, upsertPost_eq]
    have hkeynew : (postNew post now).postId = post.id := rfl
    have hany2 : (db.posts ++ [postNew post now]).any
        (fun r => r.postId == post.id) = true := by
      refine List.any_eq_true.mpr ⟨_, List.mem_append_right _ (List.mem_singleton_self _), ?_⟩
      rw [hkeynew]
      exact beq_self_eq_true _
    rw [if_pos hany2]
    congr 1
    rw [List.map_append]
    have hold : db.posts.map (postUpd post.id (normFalsy (jsOrStr post.commentary post.text))
        (normFalsy post.author) (normFalsy post.visibility)
        (jsOrNullInt post.publishedAt) now) = db.posts := by
      have hall := List.any_eq_false.mp (Bool.eq_false_iff.mpr hany)
      calc db.posts.map (postUpd post.id (normFalsy (jsOrStr post.commentary post.text))
              (normFalsy post.author) (normFalsy post.visibility)
              (jsOrNullInt post.publishedAt) now)
          = db.posts.map id := by
            refine List.map_congr_left (fun r hr => ?_)
            have hne := hall r hr
            unfold postUpd
            rw [if_neg hne]
            rfl
        _ = db.posts := List.map_id _
    rw [hold]
    have hupd : postUpd post.id (normFalsy (jsOrStr post.commentary post.text))
        (normFalsy post.author) (normFalsy post.visibility)
        (jsOrNullInt post.publishedAt) now (postNew post now) = postNew post now := by
      unfold postUpd
      rw [if_pos (by rw [hkeynew]; exact beq_self_eq_true _)]
      rfl
    rw [List.map_singleton, hupd]

/-- The WHEN MATCHED update never touches the stored reaction subtype. -/
theorem reactionType_engUpd (key : String × String × String × String) (ct : Option String)
    (ea : Option Int) (now : Int) (r : EngRow) :
    (engUpd key ct ea now r).reactionType = r.reactionType := by
  unfold engUpd
  split <;> rfl

/-- Iterating a step that turns "at most one row" into "exactly one row"
keeps exactly one row from the first application on. -/
theorem iterate_count_one {A : Type} (f : A → A) (c : A → Nat)
    (hstep : ∀ x, c x ≤ 1 → c (f x) = 1) :
    ∀ n, 1 ≤ n → ∀ x, c x ≤ 1 → c (f^[n] x) = 1 := by
  intro n
  induction n with
  | zero => intro h; exact absurd h (by decide)
  | succ m ih =>
    intro _ x hx
    rw [Function.iterate_succ_apply]
    rcases Nat.eq_zero_or_pos m with hm | hm
    · subst hm
      simpa using hstep x hx
    · exact ih hm (f x) (le_of_eq (hstep x hx))

/-- Claim C3: `upsertPost` and `upsertEngagement` are idempotent.  Repeating
the identical call changes nothing; n >= 1 repetitions leave exactly one row
for the natural key (under the unique-index invariant); and every row with
the written engagement key carries the mutable fields of the last write. -/
theorem upsert_idempotent (now : Int) (db : DB) (post : PostEv)
    (pid sub ty : String) (rt ct : Option String) (ea : Option Int)
    (hP : countPostId db post.id ≤ 1)
    (hE : countEngKey db (pid, sub, ty, (normFalsy rt).getD "") ≤ 1) :
    (upsertPost now (upsertPost now db post) post = upsertPost now db post) ∧
    (upsertEngagement now (upsertEngagement now db pid sub ty rt ct ea) pid sub ty rt ct ea
      = upsertEngagement now db pid sub ty rt ct ea) ∧
    (∀ n, 1 ≤ n → countPostId ((fun d => upsertPost now d post)^[n] db) post.id = 1) ∧
    (∀ n, 1 ≤ n →
      countEngKey ((fun d => upsertEngagement now d pid sub ty rt ct ea)^[n] db)
        (pid, sub, ty, (normFalsy rt).getD "") = 1) ∧
    (∀ row ∈ (upsertEngagement now db pid sub ty rt ct ea).engagements,
      engKey row = (pid, sub, ty, (normFalsy rt).getD "") →
        row.commentText = normFalsy ct ∧ row.engagedAt = jsOrNullInt ea ∧
          row.syncedAt = now) := by
  refine ⟨upsertPost_idem now db post, upsertEngagement_idem now db pid sub ty rt ct ea,
    ?_, ?_, ?_⟩
  · intro n hn
    exact iterate_count_one _ (fun d => countPostId d post.id)
      (fun x hx => countPostId_upsert_self now x post hx) n hn db hP
  · intro n hn
    exact iterate_count_one _ (fun d => countEngKey d (pid, sub, ty, (normFalsy rt).getD ""))
      (fun x hx => countEngKey_upsert_self now x pid sub ty rt ct ea hx) n hn db hE
  · intro row hrow hkey
    rw [upsertEngagement_eq] at hrow
    by_cases hany : db.engagements.any
        (fun r => engKey r == (pid, sub, ty, (normFalsy rt).getD "")) = true
    · rw [if_pos hany] at hrow
      have hrow2 : row ∈ db.engagements.map
          (engUpd (pid, sub, ty, (normFalsy rt).getD "")
            (normFalsy ct) (jsOrNullInt ea) now) := hrow
      rcases List.mem_map.mp hrow2 with ⟨r, hr, hconv⟩
      unfold engUpd at hconv
      by_cases hc : (engKey r == (pid, sub, ty, (normFalsy rt).getD "")) = true
      · rw [if_pos hc] at hconv
        rw [← hconv]
        exact ⟨rfl, rfl, rfl⟩
      · rw [if_neg hc] at hconv
        exfalso
        apply hc
        rw [hconv, hkey]
        exact beq_self_eq_true _
    · rw [if_neg hany] at hrow
      have hrow2 : row ∈ db.engagements ++
          [engNew pid sub ty (normFalsy rt) (normFalsy ct) (jsOrNullInt ea) now] := hrow
      rcases List.mem_append.mp hrow2 with hmem | hmem
      · exfalso
        have hall := List.any_eq_false.mp (Bool.eq_false_iff.mpr hany)
        exact hall row hmem (by rw [hkey]; exact beq_self_eq_true _)
      · have heq : row = engNew pid sub ty (normFalsy rt) (normFalsy ct)
            (jsOrNullInt ea) now := List.mem_singleton.mp hmem
        rw [heq]
        exact ⟨rfl, rfl, rfl⟩

/-- Concrete instance of `upsert_idempotent`: the double-upsert collapses and
three repeated upserts leave one row. -/
theorem upsert_idempotent_witness :
    (upsertEngagement 5 (upsertEngagement 5 dbEmpty "p1" "u1" "REACTION" (some "LIKE")
        none (some 7)) "p1" "u1" "REACTION" (some "LIKE") none (some 7)
      = upsertEngagement 5 dbEmpty "p1" "u1" "REACTION" (some "LIKE") none (some 7)) ∧
    countEngKey ((fun d => upsertEngagement 5 d "p1" "u1" "REACTION" (some "LIKE")
        none (some 7))^[3] dbEmpty)
      ("p1", "u1", "REACTION", (normFalsy (some "LIKE")).getD "") = 1 :=
  ⟨(upsert_idempotent 5 dbEmpty postW "p1" "u1" "REACTION" (some "LIKE") none (some 7)
      (by decide) (by decide)).2.1,
   (upsert_idempotent 5 dbEmpty postW "p1" "u1" "REACTION" (some "LIKE") none (some 7)
      (by decide) (by decide)).2.2.2.1 3 (by decide)⟩

/-- Claim C4: the engagement store keeps at most one row per natural key
under upserts, and keys differing in kind or subtype stay distinct: a
reaction and a comment by the same actor on the same post are two distinct
rows (one per key), as are two different reaction subtypes. -/
theorem engagement_distinct_rows (now : Int) (db : DB) (pid sub : String)
    (hu : ∀ k, countEngKey db k ≤ 1) :
    (∀ pid2 sub2 ty2 rt ct ea k,
        countEngKey (upsertEngagement now db pid2 sub2 ty2 rt ct ea) k ≤ 1) ∧
    ((pid, sub, "REACTION", "LIKE") ≠ (pid, sub, "COMMENT", "")) ∧
    (countEngKey (upsertEngagement now
        (upsertEngagement now db pid sub "REACTION" (some "LIKE") none none)
        pid sub "COMMENT" none (some "Great post!") none)
      (pid, sub, "REACTION", "LIKE") = 1 ∧
     countEngKey (upsertEngagement now
        (upsertEngagement now db pid sub "REACTION" (some "LIKE") none none)
        pid sub "COMMENT" none (some "Great post!") none)
      (pid, sub, "COMMENT", "") = 1) ∧
    ((pid, sub, "REACTION", "LIKE") ≠ (pid, sub, "REACTION", "CELEBRATE")) ∧
    (countEngKey (upsertEngagement now
        (upsertEngagement now db pid sub "REACTION" (some "LIKE") none none)
        pid sub "REACTION" (some "CELEBRATE") none none)
      (pid, sub, "REACTION", "LIKE") = 1 ∧
     countEngKey (upsertEngagement now
        (upsertEngagement now db pid sub "REACTION" (some "LIKE") none none)
        pid sub "REACTION" (some "CELEBRATE") none none)
      (pid, sub, "REACTION", "CELEBRATE") = 1) := by
  have hLIKE : (normFalsy (some "LIKE")).getD "" = "LIKE" := by decide
  have hCEL : (normFalsy (some "CELEBRATE")).getD "" = "CELEBRATE" := by decide
  have hNONE : (normFalsy (none : Option String)).getD "" = "" := rfl
  refine ⟨?_, by simp, ⟨?_, ?_⟩, by simp, ⟨?_, ?_⟩⟩
  · intro pid2 sub2 ty2 rt ct ea k
    by_cases hk : k = (pid2, sub2, ty2, (normFalsy rt).getD "")
    · rw [hk]
      exact le_of_eq (countEngKey_upsert_self now db pid2 sub2 ty2 rt ct ea (hu _))
    · rw [countEngKey_upsert_other now db pid2 sub2 ty2 rt ct ea k hk]
      exact hu k
  · have hother : ((pid, sub, "REACTION", "LIKE") : String × String × String × String)
        ≠ (pid, sub, "COMMENT", (normFalsy (none : Option String)).getD "") := by
      rw [hNONE]; simp
    rw [countEngKey_upsert_other _ _ _ _ _ _ _ _ _ hother]
    have h1 := countEngKey_upsert_self now db pid sub "REACTION" (some "LIKE") none none
      (hu _)
    rw [hLIKE] at h1
    exact h1
  · have h0 : countEngKey (upsertEngagement now db pid sub "REACTION" (some "LIKE")
        none none) (pid, sub, "COMMENT", (normFalsy (none : Option String)).getD "") ≤ 1 := by
      have hother : ((pid, sub, "COMMENT", (normFalsy (none : Option String)).getD "")
          : String × String × String × String)
          ≠ (pid, sub, "REACTION", (normFalsy (some "LIKE")).getD "") := by
        rw [hNONE, hLIKE]; simp
      rw [countEngKey_upsert_other _ _ _ _ _ _ _ _ _ hother]
      exact hu _
    have h1 := countEngKey_upsert_self now
      (upsertEngagement now db pid sub "REACTION" (some "LIKE") none none)
      pid sub "COMMENT" none (some "Great post!") none h0
    rw [hNONE] at h1
    exact h1
  · have hother : ((pid, sub, "REACTION", "LIKE") : String × String × String × String)
        ≠ (pid, sub, "REACTION", (normFalsy (some "CELEBRATE")).getD "") := by
      rw [hCEL]; simp
    rw [countEngKey_upsert_other _ _ _ _ _ _ _ _ _ hother]
    have h1 := countEngKey_upsert_self now db pid sub "REACTION" (some "LIKE") none none
      (hu _)
    rw [hLIKE] at h1
    exact h1
  · have h0 : countEngKey (upsertEngagement now db pid sub "REACTION" (some "LIKE")
        none none) (pid, sub, "REACTION", (normFalsy (some "CELEBRATE")).getD "") ≤ 1 := by
      have hother : ((pid, sub, "REACTION", (normFalsy (some "CELEBRATE")).getD "")
          : String × String × String × String)
          ≠ (pid, sub, "REACTION", (normFalsy (some "LIKE")).getD "") := by
        rw [hCEL, hLIKE]; simp
      rw [countEngKey_upsert_other _ _ _ _ _ _ _ _ _ hother]
      exact hu _
    have h1 := countEngKey_upsert_self now
      (upsertEngagement now db pid sub "REACTION" (some "LIKE") none none)
      pid sub "REACTION" (some "CELEBRATE") none none h0
    rw [hCEL] at h1
    exact h1

/-- Concrete instance of `engagement_distinct_rows`: a LIKE reaction and a
comment by the same actor on the same post are two rows with one row each. -/
theorem engagement_distinct_rows_witness :
    countEngKey (upsertEngagement 3 (upsertEngagement 3 dbEmpty "p" "u" "REACTION"
        (some "LIKE") none none) "p" "u" "COMMENT" none (some "Great post!") none)
      ("p", "u", "REACTION", "LIKE") = 1 ∧
    countEngKey (upsertEngagement 3 (upsertEngagement 3 dbEmpty "p" "u" "REACTION"
        (some "LIKE") none none) "p" "u" "COMMENT" none (some "Great post!") none)
      ("p", "u", "COMMENT", "") = 1 :=
  (engagement_distinct_rows 3 dbEmpty "p" "u" (fun _ => Nat.zero_le 1)).2.2.1

/-- Claim C10: `upsertEngagement` normalizes a falsy subtype to null and the
merge key compares subtypes through ISNULL: a null-subtype reaction and an
empty-string-subtype reaction by the same actor on the same post share one
natural key and converge to a single row whose stored subtype is null. -/
theorem upsertEngagement_subtype_normalized (now1 now2 : Int) (db : DB)
    (pid sub : String) (ct1 ct2 : Option String) (ea1 ea2 : Option Int)
    (h0 : countEngKey db (pid, sub, "REACTION", "") = 0) :
    normFalsy (some "") = none ∧
    (normFalsy (some "")).getD "" = (normFalsy (none : Option String)).getD "" ∧
    countEngKey
      (upsertEngagement now2 (upsertEngagement now1 db pid sub "REACTION" none ct1 ea1)
        pid sub "REACTION" (some "") ct2 ea2)
      (pid, sub, "REACTION", "") = 1 ∧
    (upsertEngagement now2 (upsertEngagement now1 db pid sub "REACTION" none ct1 ea1)
        pid sub "REACTION" (some "") ct2 ea2).engagements.length
      = db.engagements.length + 1 ∧
    (∀ row ∈ (upsertEngagement now2 (upsertEngagement now1 db pid sub "REACTION" none
        ct1 ea1) pid sub "REACTION" (some "") ct2 ea2).engagements,
      engKey row = (pid, sub, "REACTION", "") → row.reactionType = none) := by
  have hEMP : (normFalsy (some "")).getD "" = "" := by decide
  have hNONE : (normFalsy (none : Option String)).getD "" = "" := rfl
  have hnorm : normFalsy (some "") = none := by decide
  -- the first upsert inserts (no row with the key yet)
  have hany1 : db.engagements.any
      (fun r => engKey r == (pid, sub, "REACTION", (normFalsy (none : Option String)).getD ""))
      = false := by
    rw [hNONE]
    rw [List.any_eq_false]
    intro a ha hpa
    have := List.countP_eq_zero.mp h0 a ha
    exact this hpa
  have hd1 : upsertEngagement now1 db pid sub "REACTION" none ct1 ea1 =
      { db with engagements := db.engagements ++
          [engNew pid sub "REACTION" (normFalsy none) (normFalsy ct1)
            (jsOrNullInt ea1) now1] } := by
    rw [upsertEngagement_eq, if_neg (by rw [hany1]; exact Bool.false_ne_true)]
  -- the second upsert matches the inserted row
  have hkeynew : engKey (engNew pid sub "REACTION" (normFalsy none) (normFalsy ct1)
      (jsOrNullInt ea1) now1) = (pid, sub, "REACTION", "") := rfl
  have hany2 : ((db.engagements ++
      [engNew pid sub "REACTION" (normFalsy none) (normFalsy ct1)
        (jsOrNullInt ea1) now1]).any
      (fun r => engKey r == (pid, sub, "REACTION", (normFalsy (some "")).getD "")))
      = true := by
    refine List.any_eq_true.mpr ⟨_, List.mem_append_right _ (List.mem_singleton_self _), ?_⟩
    rw [hkeynew, hEMP]
    exact beq_self_eq_true _
  have hd2 : upsertEngagement now2 (upsertEngagement now1 db pid sub "REACTION" none
      ct1 ea1) pid sub "REACTION" (some "") ct2 ea2 =
      { db with engagements :=
                  (db.engagements ++
                      [engNew pid sub "REACTION" (normFalsy none) (normFalsy ct1)
                        (jsOrNullInt ea1) now1]).map
                    (engUpd (pid, sub, "REACTION", (normFalsy (some "")).getD "")
                      (normFalsy ct2) (jsOrNullInt ea2) now2) } := by
    rw [hd1, upsertEngagement_eq, if_pos hany2]
  refine ⟨hnorm, by rw [hEMP, hNONE], ?_, ?_, ?_⟩
  · -- exactly one row with the shared key
    have h1 : countEngKey (upsertEngagement now1 db pid sub "REACTION" none ct1 ea1)
        (pid, sub, "REACTION", "") = 1 := by
      have := countEngKey_upsert_self now1 db pid sub "REACTION" none ct1 ea1
        (by rw [hNONE, h0]; exact Nat.zero_le 1)
      rw [hNONE] at this
      exact this
    have h2 := countEngKey_upsert_self now2
      (upsertEngagement now1 db pid sub "REACTION" none ct1 ea1)
      pid sub "REACTION" (some "") ct2 ea2 (by rw [hEMP, h1])
    rw [hEMP] at h2
    exact h2
  · rw [hd2]
    show (List.map (engUpd (pid, sub, "REACTION", (normFalsy (some "")).getD "")
        (normFalsy ct2) (jsOrNullInt ea2) now2)
        (db.engagements ++ [engNew pid sub "REACTION" (normFalsy none) (normFalsy ct1)
          (jsOrNullInt ea1) now1])).length = db.engagements.length + 1
    rw [List.length_map, List.length_append]
    rfl
  · intro row hrow hkey
    rw [hd2] at hrow
    have hrow2 : row ∈ (db.engagements ++
        [engNew pid sub "REACTION" (normFalsy none) (normFalsy ct1)
          (jsOrNullInt ea1) now1]).map
        (engUpd (pid, sub, "REACTION", (normFalsy (some "")).getD "")
          (normFalsy ct2) (jsOrNullInt ea2) now2) := hrow
    rcases List.mem_map.mp hrow2 with ⟨r, hr, hconv⟩
    rcases List.mem_append.mp hr with hmem | hmem
    · exfalso
      have hkr : engKey r = (pid, sub, "REACTION", "") := by
        rw [← engKey_engUpd (pid, sub, "REACTION", (normFalsy (some "")).getD "")
          (normFalsy ct2) (jsOrNullInt ea2) now2 r, hconv, hkey]
      have := List.countP_eq_zero.mp h0 r hmem
      exact this (by rw [hkr]; exact beq_self_eq_true _)
    · have heq : r = engNew pid sub "REACTION" (normFalsy none) (normFalsy ct1)
          (jsOrNullInt ea1) now1 := List.mem_singleton.mp hmem
      rw [← hconv, reactionType_engUpd, heq]
      rfl

/-- Concrete instance of `upsertEngagement_subtype_normalized`: on an empty
store, a null-subtype then an empty-string-subtype reaction leave one row. -/
theorem upsertEngagement_subtype_normalized_witness :
    countEngKey (upsertEngagement 2 (upsertEngagement 1 dbEmpty "p" "u" "REACTION" none
        (some "x") none) "p" "u" "REACTION" (some "") (some "y") none)
      ("p", "u", "REACTION", "") = 1 ∧
    (upsertEngagement 2 (upsertEngagement 1 dbEmpty "p" "u" "REACTION" none (some "x") none)
        "p" "u" "REACTION" (some "") (some "y") none).engagements.length
      = dbEmpty.engagements.length + 1 :=
  ⟨(upsertEngagement_subtype_normalized 1 2 dbEmpty "p" "u" (some "x") (some "y")
      none none rfl).2.2.1,
   (upsertEngagement_subtype_normalized 1 2 dbEmpty "p" "u" (some "x") (some "y")
      none none rfl).2.2.2.1⟩

/-- `upsertPost` touches only the post table. -/
theorem upsertPost_logs (now : Int) (db : DB) (post : PostEv) :
    (upsertPost now db post).syncLogs = db.syncLogs ∧
    (upsertPost now db post).nextLogId = db.nextLogId := by
  rw [upsertPost_eq]
  split <;> exact ⟨rfl, rfl⟩

/-- `upsertEngagement` touches only the engagement table. -/
theorem upsertEngagement_logs (now : Int) (db : DB) (pid sub ty : String)
    (rt ct : Option String) (ea : Option Int) :
    (upsertEngagement now db pid sub ty rt ct ea).syncLogs = db.syncLogs ∧
    (upsertEngagement now db pid sub ty rt ct ea).nextLogId = db.nextLogId := by
  rw [upsertEngagement_eq]
  split <;> exact ⟨rfl, rfl⟩

/-- `getAdminToken` touches only the credential row. -/
theorem getAdminToken_logs (env : Env) (db : DB) :
    (getAdminToken env db).2.1.syncLogs = db.syncLogs ∧
    (getAdminToken env db).2.1.nextLogId = db.nextLogId := by
  cases hdb : db.adminTokens with
  | none =>
    simp [getAdminToken, hdb]
  | some t =>
    simp only [getAdminToken, hdb]
    by_cases hexp : t.expiresAt < env.now
    · rw [if_pos hexp]
      by_cases hrt : truthyStr t.refreshToken = true
      · rw [if_pos hrt]
        unfold refreshAdminToken
        cases env.refreshResponse with
        | error e => exact ⟨rfl, rfl⟩
        | ok data => exact ⟨rfl, rfl⟩
      · rw [if_neg hrt]
        exact ⟨rfl, rfl⟩
    · rw [if_neg hexp]
      exact ⟨rfl, rfl⟩

/-- The reactions loop never touches the Run Log table. -/
theorem processReactions_logs (env : Env) (emp : List String) (pid : String) :
    ∀ evs db e, (processReactions env emp pid evs db e).db.syncLogs = db.syncLogs ∧
      (processReactions env emp pid evs db e).db.nextLogId = db.nextLogId := by
  intro evs
  induction evs with
  | nil => intro db e; exact ⟨rfl, rfl⟩
  | cons r rest ih =>
    intro db e
    simp only [processReactions]
    by_cases hc : emp.contains r.actor = true
    · rw [if_pos hc]
      cases hw : env.engWriteFail pid r.actor "REACTION" with
      | some msg => exact ⟨rfl, rfl⟩
      | none =>
        dsimp only
        refine ⟨?_, ?_⟩
        · rw [(ih _ _).1, (upsertEngagement_logs _ _ _ _ _ _ _ _).1]
        · rw [(ih _ _).2, (upsertEngagement_logs _ _ _ _ _ _ _ _).2]
    · rw [if_neg hc]
      exact ih db e

/-- The comments loop never touches the Run Log table. -/
theorem processComments_logs (env : Env) (emp : List String) (pid : String) :
    ∀ evs db e, (processComments env emp pid evs db e).db.syncLogs = db.syncLogs ∧
      (processComments env emp pid evs db e).db.nextLogId = db.nextLogId := by
  intro evs
  induction evs with
  | nil => intro db e; exact ⟨rfl, rfl⟩
  | cons c rest ih =>
    intro db e
    simp only [processComments]
    by_cases hc : emp.contains c.actor = true
    · rw [if_pos hc]
      cases hw : env.engWriteFail pid c.actor "COMMENT" with
      | some msg => exact ⟨rfl, rfl⟩
      | none =>
        dsimp only
        refine ⟨?_, ?_⟩
        · rw [(ih _ _).1, (upsertEngagement_logs _ _ _ _ _ _ _ _).1]
        · rw [(ih _ _).2, (upsertEngagement_logs _ _ _ _ _ _ _ _).2]
    · rw [if_neg hc]
      exact ih db e

/-- The mock engagement loop never touches the Run Log table. -/
theorem processMockEngs_logs (env : Env) (pid : String) :
    ∀ evs db e, (processMockEngs env pid evs db e).db.syncLogs = db.syncLogs ∧
      (processMockEngs env pid evs db e).db.nextLogId = db.nextLogId := by
  intro evs
  induction evs with
  | nil => intro db e; exact ⟨rfl, rfl⟩
  | cons eng rest ih =>
    intro db e
    simp only [processMockEngs]
    cases hw : env.engWriteFail pid eng.actor eng.type with
    | some msg => exact ⟨rfl, rfl⟩
    | none =>
      dsimp only
      refine ⟨?_, ?_⟩
      · rw [(ih _ _).1, (upsertEngagement_logs _ _ _ _ _ _ _ _).1]
      · rw [(ih _ _).2, (upsertEngagement_logs _ _ _ _ _ _ _ _).2]

/-- The live per-post loop never touches the Run Log table. -/
theorem processLivePosts_logs (env : Env) (emp : List String) :
    ∀ posts db p e, (processLivePosts env emp posts db p e).db.syncLogs = db.syncLogs ∧
      (processLivePosts env emp posts db p e).db.nextLogId = db.nextLogId := by
  intro posts
  induction posts with
  | nil => intro db p e; exact ⟨rfl, rfl⟩
  | cons post rest ih =>
    intro db p e
    simp only [processLivePosts]
    cases hw : env.postWriteFail post.id with
    | some msg => exact ⟨rfl, rfl⟩
    | none =>
      dsimp only
      have hpost := upsertPost_logs env.now db post
      cases hr : processReactions env emp post.id (fetchReactions env post.id)
          (upsertPost env.now db post) e with
      | fail db2 e2 msg =>
        dsimp only
        have h2 := processReactions_logs env emp post.id (fetchReactions env post.id)
          (upsertPost env.now db post) e
        rw [hr] at h2
        exact ⟨h2.1.trans hpost.1, h2.2.trans hpost.2⟩
      | ok db2 e2 =>
        dsimp only
        have h2 := processReactions_logs env emp post.id (fetchReactions env post.id)
          (upsertPost env.now db post) e
        rw [hr] at h2
        cases hcm : processComments env emp post.id (fetchComments env post.id) db2 e2 with
        | fail db3 e3 msg =>
          dsimp only
          have h3 := processComments_logs env emp post.id (fetchComments env post.id) db2 e2
          rw [hcm] at h3
          exact ⟨(h3.1.trans h2.1).trans hpost.1, (h3.2.trans h2.2).trans hpost.2⟩
        | ok db3 e3 =>
          dsimp only
          have h3 := processComments_logs env emp post.id (fetchComments env post.id) db2 e2
          rw [hcm] at h3
          have h4 := ih db3 (p + 1) e3
          exact ⟨((h4.1.trans h3.1).trans h2.1).trans hpost.1,
                 ((h4.2.trans h3.2).trans h2.2).trans hpost.2⟩

/-- The mock per-post loop never touches the Run Log table. -/
theorem processMockPosts_logs (env : Env) (users : List String) :
    ∀ posts db p e, (processMockPosts env users posts db p e).db.syncLogs = db.syncLogs ∧
      (processMockPosts env users posts db p e).db.nextLogId = db.nextLogId := by
  intro posts
  induction posts with
  | nil => intro db p e; exact ⟨rfl, rfl⟩
  | cons post rest ih =>
    intro db p e
    simp only [processMockPosts]
    cases hw : env.postWriteFail post.id with
    | some msg => exact ⟨rfl, rfl⟩
    | none =>
      dsimp only
      have hpost := upsertPost_logs env.now db post
      cases hm : processMockEngs env post.id (env.mockEngagements post.id users)
          (upsertPost env.now db post) e with
      | fail db2 e2 msg =>
        dsimp only
        have h2 := processMockEngs_logs env post.id (env.mockEngagements post.id users)
          (upsertPost env.now db post) e
        rw [hm] at h2
        exact ⟨h2.1.trans hpost.1, h2.2.trans hpost.2⟩
      | ok db2 e2 =>
        dsimp only
        have h2 := processMockEngs_logs env post.id (env.mockEngagements post.id users)
          (upsertPost env.now db post) e
        rw [hm] at h2
        have h4 := ih db2 (p + 1) e2
        exact ⟨(h4.1.trans h2.1).trans hpost.1, (h4.2.trans h2.2).trans hpost.2⟩

/-- The run body never touches the Run Log table: the store it returns,
normally or on a thrown error, carries the same log rows it started with. -/
theorem runBody_logs (env : Env) (db : DB) :
    (runBody env db).db.syncLogs = db.syncLogs ∧
    (runBody env db).db.nextLogId = db.nextLogId := by
  unfold runBody
  by_cases hm : env.mockMode = true
  · rw [if_pos hm]
    exact processMockPosts_logs env db.users (mockPosts env) db 0 0
  · rw [if_neg hm]
    by_cases hc : (!hasAdminTokenConfigured env) = true
    · rw [if_pos hc]
      exact ⟨rfl, rfl⟩
    · rw [if_neg hc]
      have htok := getAdminToken_logs env db
      cases htk : getAdminToken env db with
      | mk outcome rest =>
        cases rest with
        | mk db1 n =>
          rw [htk] at htok
          cases outcome with
          | error msg => exact htok
          | ok tok =>
            dsimp only
            cases hfp : fetchPosts env with
            | error msg => exact htok
            | ok posts =>
              dsimp only
              have h2 := processLivePosts_logs env (getEmployeeUrns db) posts db1 0 0
              exact ⟨h2.1.trans htok.1, h2.2.trans htok.2⟩

/-- After `updateSyncLog`, every row carrying the written id carries the
written terminal fields. -/
theorem updateSyncLog_rows (now : Int) (db : DB) (logId : Nat) (status : String)
    (p e : Nat) (errMsg : Option String) :
    ∀ row ∈ (updateSyncLog now db logId status p e errMsg).syncLogs, row.id = logId →
      row.status = status ∧ row.postsProcessed = p ∧ row.engagementsFound = e ∧
      row.errorMessage = normFalsy errMsg ∧ row.completedAt = some now := by
  intro row hrow hid
  have hrow2 : row ∈ db.syncLogs.map (fun r =>
      if r.id == logId then
        { r with status := status, postsProcessed := p, engagementsFound := e,
                 errorMessage := normFalsy errMsg, completedAt := some now }
      else r) := hrow
  rcases List.mem_map.mp hrow2 with ⟨r, hr, hconv⟩
  by_cases hc : (r.id == logId) = true
  · rw [if_pos hc] at hconv
    rw [← hconv]
    exact ⟨rfl, rfl, rfl, rfl, rfl⟩
  · rw [if_neg hc] at hconv
    exfalso
    apply hc
    rw [hconv, hid]
    exact beq_self_eq_true _

/-- `updateSyncLog` keeps every row id present. -/
theorem updateSyncLog_mem_id (now : Int) (db : DB) (logId : Nat) (status : String)
    (p e : Nat) (errMsg : Option String) (row : SyncLogRow) (hrow : row ∈ db.syncLogs) :
    ∃ row2 ∈ (updateSyncLog now db logId status p e errMsg).syncLogs, row2.id = row.id := by
  have hmem : (if row.id == logId then
      { row with status := status, postsProcessed := p, engagementsFound := e,
                 errorMessage := normFalsy errMsg, completedAt := some now }
      else row) ∈ (updateSyncLog now db logId status p e errMsg).syncLogs :=
    List.mem_map_of_mem _ hrow
  refine ⟨_, hmem, ?_⟩
  split <;> rfl

/-- A row of the written id exists and all such rows carry the terminal
fields, provided one row with the id was present before the update. -/
theorem log_row_after_update (now : Int) (db1 : DB) (logId : Nat) (status : String)
    (p e : Nat) (errMsg : Option String) (row0 : SyncLogRow)
    (hmem : row0 ∈ db1.syncLogs) (hid0 : row0.id = logId) :
    (∃ row ∈ (updateSyncLog now db1 logId status p e errMsg).syncLogs, row.id = logId) ∧
    (∀ row ∈ (updateSyncLog now db1 logId status p e errMsg).syncLogs, row.id = logId →
      row.status = status ∧ row.postsProcessed = p ∧ row.engagementsFound = e ∧
      row.errorMessage = normFalsy errMsg ∧ row.completedAt = some now) := by
  constructor
  · rcases updateSyncLog_mem_id now db1 logId status p e errMsg row0 hmem with ⟨row2, h2, hid2⟩
    exact ⟨row2, h2, by rw [hid2, hid0]⟩
  · exact updateSyncLog_rows now db1 logId status p e errMsg

/-- Claim C1: every invocation of `runFullSync` terminates its own Run Log
entry.  Whatever fatal error arises inside the body (token failure, posts
fetch failure, unconfigured credentials, a rejecting upsert), the invocation
returns a structured result, never an unhandled exception (the embedding of
the try/catch is a total function); a failure carries an error message; and
the log row of this run ends `"SUCCESS"` or `"FAILED"` in agreement with the
result, with the same counts and message and a completion timestamp, never
stuck in `"RUNNING"`. -/
theorem runFullSync_log_terminal (env : Env) (db : DB) :
    ((runFullSync env db).1.success = false → ((runFullSync env db).1.error).isSome = true) ∧
    ((runFullSync env db).1.success = true → (runFullSync env db).1.error = none) ∧
    (∃ row ∈ (runFullSync env db).2.syncLogs, row.id = db.nextLogId) ∧
    (∀ row ∈ (runFullSync env db).2.syncLogs, row.id = db.nextLogId →
      row.status = (if (runFullSync env db).1.success then "SUCCESS" else "FAILED") ∧
      row.postsProcessed = (runFullSync env db).1.postsProcessed ∧
      row.engagementsFound = (runFullSync env db).1.engagementsFound ∧
      row.errorMessage = normFalsy ((runFullSync env db).1.error) ∧
      row.completedAt = some env.now) := by
  have hbody := runBody_logs env (createSyncLog env.now db "RUNNING").2
  have hnew : runningRow db env.now ∈ (createSyncLog env.now db "RUNNING").2.syncLogs :=
    List.mem_append_right _ (List.mem_singleton_self _)
  cases hb : runBody env (createSyncLog env.now db "RUNNING").2 with
  | ok db1 p e =>
    rw [hb] at hbody
    have hrun : runFullSync env db =
        ({ success := true, error := none, postsProcessed := p, engagementsFound := e },
         updateSyncLog env.now db1 db.nextLogId "SUCCESS" p e none) := by
      simp only [runFullSync, hb]
      rfl
    have hb1 : db1.syncLogs = (createSyncLog env.now db "RUNNING").2.syncLogs := hbody.1
    have hmem1 : runningRow db env.now ∈ db1.syncLogs := by
      rw [hb1]; exact hnew
    have haux := log_row_after_update env.now db1 db.nextLogId "SUCCESS" p e none _ hmem1 rfl
    rw [hrun]
    refine ⟨by simp, fun _ => rfl, haux.1, ?_⟩
    intro row hrow hid
    have hf := haux.2 row hrow hid
    simpa using hf
  | fail db1 p e msg =>
    rw [hb] at hbody
    have hrun : runFullSync env db =
        ({ success := false, error := some msg, postsProcessed := p, engagementsFound := e },
         updateSyncLog env.now db1 db.nextLogId "FAILED" p e (some msg)) := by
      simp only [runFullSync, hb]
      rfl
    have hb1 : db1.syncLogs = (createSyncLog env.now db "RUNNING").2.syncLogs := hbody.1
    have hmem1 : runningRow db env.now ∈ db1.syncLogs := by
      rw [hb1]; exact hnew
    have haux := log_row_after_update env.now db1 db.nextLogId "FAILED" p e (some msg) _ hmem1 rfl
    rw [hrun]
    refine ⟨fun _ => rfl, by simp, haux.1, ?_⟩
    intro row hrow hid
    have hf := haux.2 row hrow hid
    simpa using hf

/-- Concrete instance of `runFullSync_log_terminal`: the unconfigured live
run returns a structured failure and its log row exists. -/
theorem runFullSync_log_terminal_witness :
    (runFullSync envC1 dbEmpty).1.success = false ∧
    ((runFullSync envC1 dbEmpty).1.error).isSome = true ∧
    ∃ row ∈ (runFullSync envC1 dbEmpty).2.syncLogs, row.id = dbEmpty.nextLogId := by
  refine ⟨rfl, ?_, (runFullSync_log_terminal envC1 dbEmpty).2.2.1⟩
  exact (runFullSync_log_terminal envC1 dbEmpty).1 rfl

/-- `getAdminToken` on a still-valid cached credential: returns it with no
network call and no store write. -/
theorem getAdminToken_valid (env : Env) (d : DB) (t : AdminToken)
    (hcred : d.adminTokens = some t) (hvalid : ¬(t.expiresAt < env.now)) :
    getAdminToken env d = (.ok t.accessToken, d, 0) := by
  simp [getAdminToken, hcred, hvalid]

/-- With no rejecting engagement writes, the reactions loop of one post
finishes and adds exactly the number of matched reaction events. -/
theorem processReactions_count (env : Env) (emp : List String) (pid : String)
    (hnoef : ∀ a b c, env.engWriteFail a b c = none) :
    ∀ evs db e, ∃ db2, processReactions env emp pid evs db e =
      .ok db2 (e + (matchSpec ReactionEv.actor evs emp).length) := by
  intro evs
  induction evs with
  | nil =>
    intro db e
    exact ⟨db, by simp [matchSpec, processReactions]⟩
  | cons r rest ih =>
    intro db e
    cases hc : emp.contains r.actor with
    | true =>
      obtain ⟨db2, h2⟩ := ih (upsertEngagement env.now db pid r.actor "REACTION"
        r.reactionType none r.createdTime) (e + 1)
      refine ⟨db2, ?_⟩
      have hm : r.actor ∈ emp := by simpa using hc
      have hlen : (matchSpec ReactionEv.actor (r :: rest) emp).length
          = (matchSpec ReactionEv.actor rest emp).length + 1 := by
        simp [matchSpec, List.filter_cons, hm]
      rw [hlen]
      have harith : e + ((matchSpec ReactionEv.actor rest emp).length + 1)
          = (e + 1) + (matchSpec ReactionEv.actor rest emp).length := by omega
      rw [harith]
      simp only [processReactions, hc, if_true, hnoef]
      exact h2
    | false =>
      obtain ⟨db2, h2⟩ := ih db e
      refine ⟨db2, ?_⟩
      have hm : r.actor ∉ emp := by simpa using hc
      have hlen : matchSpec ReactionEv.actor (r :: rest) emp
          = matchSpec ReactionEv.actor rest emp := by
        simp [matchSpec, List.filter_cons, hm]
      rw [hlen]
      simp only [processReactions, hc, Bool.false_eq_true, if_false]
      exact h2

/-- With no rejecting engagement writes, the comments loop of one post
finishes and adds exactly the number of matched comment events. -/
theorem processComments_count (env : Env) (emp : List String) (pid : String)
    (hnoef : ∀ a b c, env.engWriteFail a b c = none) :
    ∀ evs db e, ∃ db2, processComments env emp pid evs db e =
      .ok db2 (e + (matchSpec CommentEv.actor evs emp).length) := by
  intro evs
  induction evs with
  | nil =>
    intro db e
    exact ⟨db, by simp [matchSpec, processComments]⟩
  | cons c rest ih =>
    intro db e
    cases hc : emp.contains c.actor with
    | true =>
      obtain ⟨db2, h2⟩ := ih (upsertEngagement env.now db pid c.actor "COMMENT"
        none c.messageText c.createdTime) (e + 1)
      refine ⟨db2, ?_⟩
      have hm : c.actor ∈ emp := by simpa using hc
      have hlen : (matchSpec CommentEv.actor (c :: rest) emp).length
          = (matchSpec CommentEv.actor rest emp).length + 1 := by
        simp [matchSpec, List.filter_cons, hm]
      rw [hlen]
      have harith : e + ((matchSpec CommentEv.actor rest emp).length + 1)
          = (e + 1) + (matchSpec CommentEv.actor rest emp).length := by omega
      rw [harith]
      simp only [processComments, hc, if_true, hnoef]
      exact h2
    | false =>
      obtain ⟨db2, h2⟩ := ih db e
      refine ⟨db2, ?_⟩
      have hm : c.actor ∉ emp := by simpa using hc
      have hlen : matchSpec CommentEv.actor (c :: rest) emp
          = matchSpec CommentEv.actor rest emp := by
        simp [matchSpec, List.filter_cons, hm]
      rw [hlen]
      simp only [processComments, hc, Bool.false_eq_true, if_false]
      exact h2

/-- One live post step with a working store: the post is counted and the
matched reactions and comments of that post are added to the counter. -/
theorem processLivePosts_cons_ok (env : Env) (emp : List String) (post : PostEv)
    (rest : List PostEv) (db : DB) (p e : Nat)
    (hnopf : env.postWriteFail post.id = none)
    (hnoef : ∀ a b c, env.engWriteFail a b c = none) :
    ∃ dbr, processLivePosts env emp (post :: rest) db p e =
      processLivePosts env emp rest dbr (p + 1)
        (e + (matchSpec ReactionEv.actor (fetchReactions env post.id) emp).length
           + (matchSpec CommentEv.actor (fetchComments env post.id) emp).length) := by
  obtain ⟨dbA, hA⟩ := processReactions_count env emp post.id hnoef
    (fetchReactions env post.id) (upsertPost env.now db post) e
  obtain ⟨dbB, hB⟩ := processComments_count env emp post.id hnoef
    (fetchComments env post.id) dbA
    (e + (matchSpec ReactionEv.actor (fetchReactions env post.id) emp).length)
  refine ⟨dbB, ?_⟩
  simp only [processLivePosts, hnopf, hA, hB]

/-- Claim C2: per-post fetch failures are fault-isolated.  In a live run
with a valid token, a working store and three listed posts whose middle
comment fetch rejects, the rejection is swallowed into an empty list, the
run still succeeds with all three posts processed, and the engagement count
is the matched events of the other fetches (the failing fetch contributes
zero). -/
theorem runFullSync_comment_fault_isolated (env : Env) (db : DB) (t : AdminToken)
    (p1 p2 p3 : PostEv) (msg : String)
    (hmock : env.mockMode = false)
    (hcfg : hasAdminTokenConfigured env = true)
    (hcred : db.adminTokens = some t)
    (hvalid : ¬(t.expiresAt < env.now))
    (hposts : env.postsResponse = .ok { elements := some [p1, p2, p3] })
    (hc2 : env.commentsResponse p2.id = .error msg)
    (hnopf : ∀ a, env.postWriteFail a = none)
    (hnoef : ∀ a b c, env.engWriteFail a b c = none) :
    fetchComments env p2.id = [] ∧
    (runFullSync env db).1.success = true ∧
    (runFullSync env db).1.postsProcessed = 3 ∧
    (runFullSync env db).1.engagementsFound =
      (matchSpec ReactionEv.actor (fetchReactions env p1.id) (getEmployeeUrns db)).length +
      (matchSpec CommentEv.actor (fetchComments env p1.id) (getEmployeeUrns db)).length +
      (matchSpec ReactionEv.actor (fetchReactions env p2.id) (getEmployeeUrns db)).length +
      (matchSpec ReactionEv.actor (fetchReactions env p3.id) (getEmployeeUrns db)).length +
      (matchSpec CommentEv.actor (fetchComments env p3.id) (getEmployeeUrns db)).length := by
  have hfc2 : fetchComments env p2.id = [] := by
    simp [fetchComments, hc2]
  have hfp : fetchPosts env = .ok [p1, p2, p3] := by
    simp [fetchPosts, hposts]
  set emp := getEmployeeUrns db with hemp
  set rA := (matchSpec ReactionEv.actor (fetchReactions env p1.id) emp).length with hdefrA
  set cA := (matchSpec CommentEv.actor (fetchComments env p1.id) emp).length with hdefcA
  set rB := (matchSpec ReactionEv.actor (fetchReactions env p2.id) emp).length with hdefrB
  set cB := (matchSpec CommentEv.actor (fetchComments env p2.id) emp).length with hdefcB
  set rC := (matchSpec ReactionEv.actor (fetchReactions env p3.id) emp).length with hdefrC
  set cC := (matchSpec CommentEv.actor (fetchComments env p3.id) emp).length with hdefcC
  have hcB : cB = 0 := by
    rw [hdefcB, hfc2]
    rfl
  have hcred0 : ((createSyncLog env.now db "RUNNING").2).adminTokens = some t := hcred
  have htok := getAdminToken_valid env (createSyncLog env.now db "RUNNING").2 t hcred0 hvalid
  obtain ⟨d1, h1⟩ := processLivePosts_cons_ok env emp p1 [p2, p3]
    (createSyncLog env.now db "RUNNING").2 0 0 (hnopf p1.id) hnoef
  obtain ⟨d2, h2⟩ := processLivePosts_cons_ok env emp p2 [p3] d1 (0 + 1)
    (0 + rA + cA) (hnopf p2.id) hnoef
  obtain ⟨d3, h3⟩ := processLivePosts_cons_ok env emp p3 [] d2 (0 + 1 + 1)
    (0 + rA + cA + rB + cB) (hnopf p3.id) hnoef
  have htotal : processLivePosts env emp [p1, p2, p3]
      (createSyncLog env.now db "RUNNING").2 0 0 =
      .ok d3 (0 + 1 + 1 + 1) (0 + rA + cA + rB + cB + rC + cC) := by
    rw [h1, h2, h3]
    rfl
  have hrb : runBody env (createSyncLog env.now db "RUNNING").2 =
      .ok d3 (0 + 1 + 1 + 1) (0 + rA + cA + rB + cB + rC + cC) := by
    simp only [runBody, hmock, hcfg, htok, hfp, Bool.not_true]
    exact htotal
  have hrun : runFullSync env db =
      ({ success := true, error := none, postsProcessed := 0 + 1 + 1 + 1,
         engagementsFound := 0 + rA + cA + rB + cB + rC + cC },
       updateSyncLog env.now d3 db.nextLogId "SUCCESS" (0 + 1 + 1 + 1)
         (0 + rA + cA + rB + cB + rC + cC) none) := by
    simp only [runFullSync, hrb]
    rfl
  have hSucc : (runFullSync env db).1.success = true := by rw [hrun]
  have hPP : (runFullSync env db).1.postsProcessed = 0 + 1 + 1 + 1 := by rw [hrun]
  have hEF : (runFullSync env db).1.engagementsFound
      = 0 + rA + cA + rB + cB + rC + cC := by rw [hrun]
  refine ⟨hfc2, hSucc, ?_, ?_⟩
  · rw [hPP]
  · rw [hEF, hcB]
    omega

/-- Concrete instance of `runFullSync_comment_fault_isolated`: the failing
comment fetch yields no events, the run succeeds with 3 posts and the 3
matched engagements of the other fetches. -/
theorem runFullSync_comment_fault_isolated_witness :
    fetchComments envC2 "B" = [] ∧
    (runFullSync envC2 dbC2).1.success = true ∧
    (runFullSync envC2 dbC2).1.postsProcessed = 3 ∧
    (runFullSync envC2 dbC2).1.engagementsFound = 3 := by
  obtain ⟨hf, hs, hp, he⟩ := runFullSync_comment_fault_isolated envC2 dbC2 tokC2
    postA postB postC "boom" rfl rfl rfl (by decide) rfl rfl
    (fun _ => rfl) (fun _ _ _ => rfl)
  refine ⟨hf, hs, hp, ?_⟩
  rw [he]
  rfl

/-- The WHEN MATCHED update never changes the actor of a row. -/
theorem userSub_engUpd (key : String × String × String × String) (ct : Option String)
    (ea : Option Int) (now : Int) (r : EngRow) :
    (engUpd key ct ea now r).userSub = r.userSub := by
  unfold engUpd
  split <;> rfl

/-- `upsertPost` never touches the engagement table. -/
theorem upsertPost_engagements (now : Int) (db : DB) (post : PostEv) :
    (upsertPost now db post).engagements = db.engagements := by
  rw [upsertPost_eq]
  split <;> rfl

/-- `getAdminToken` never touches the engagement table. -/
theorem getAdminToken_engagements (env : Env) (db : DB) :
    (getAdminToken env db).2.1.engagements = db.engagements := by
  cases hdb : db.adminTokens with
  | none => simp [getAdminToken, hdb]
  | some t =>
    simp only [getAdminToken, hdb]
    by_cases hexp : t.expiresAt < env.now
    · rw [if_pos hexp]
      by_cases hrt : truthyStr t.refreshToken = true
      · rw [if_pos hrt]
        unfold refreshAdminToken
        cases env.refreshResponse with
        | error e => rfl
        | ok data => rfl
      · rw [if_neg hrt]
    · rw [if_neg hexp]

/-- Every actor in the table after an upsert either satisfies a property
already satisfied by all previous rows or is the upserted actor. -/
theorem upsertEngagement_userSub (now : Int) (db : DB) (pid sub ty : String)
    (rt ct : Option String) (ea : Option Int) (Q : String → Prop)
    (hdb : ∀ row ∈ db.engagements, Q row.userSub) (hsub : Q sub) :
    ∀ row ∈ (upsertEngagement now db pid sub ty rt ct ea).engagements, Q row.userSub := by
  intro row hrow
  rw [upsertEngagement_eq] at hrow
  by_cases hany : db.engagements.any
      (fun r => engKey r == (pid, sub, ty, (normFalsy rt).getD "")) = true
  · rw [if_pos hany] at hrow
    have hrow2 : row ∈ db.engagements.map
        (engUpd (pid, sub, ty, (normFalsy rt).getD "")
          (normFalsy ct) (jsOrNullInt ea) now) := hrow
    rcases List.mem_map.mp hrow2 with ⟨r, hr, hconv⟩
    rw [← hconv, userSub_engUpd]
    exact hdb r hr
  · rw [if_neg hany] at hrow
    have hrow2 : row ∈ db.engagements ++
        [engNew pid sub ty (normFalsy rt) (normFalsy ct) (jsOrNullInt ea) now] := hrow
    rcases List.mem_append.mp hrow2 with hmem | hmem
    · exact hdb row hmem
    · have heq : row = engNew pid sub ty (normFalsy rt) (normFalsy ct)
          (jsOrNullInt ea) now := List.mem_singleton.mp hmem
      rw [heq]
      exact hsub

/-- The reactions loop only ever writes engagement rows for matched actors. -/
theorem processReactions_actors (env : Env) (emp : List String) (pid : String)
    (Q : String → Prop) (hQ : ∀ a, emp.contains a = true → Q a) :
    ∀ evs db e, (∀ row ∈ db.engagements, Q row.userSub) →
      ∀ row ∈ ((processReactions env emp pid evs db e).db).engagements, Q row.userSub := by
  intro evs
  induction evs with
  | nil => intro db e hdb; exact hdb
  | cons r rest ih =>
    intro db e hdb
    cases hc : emp.contains r.actor with
    | true =>
      cases hw : env.engWriteFail pid r.actor "REACTION" with
      | some msg =>
        simp only [processReactions, hc, hw, if_true]
        exact hdb
      | none =>
        simp only [processReactions, hc, hw, if_true]
        exact ih _ _ (upsertEngagement_userSub env.now db pid r.actor "REACTION"
          r.reactionType none r.createdTime Q hdb (hQ r.actor hc))
    | false =>
      simp only [processReactions, hc, Bool.false_eq_true, if_false]
      exact ih db e hdb

/-- The comments loop only ever writes engagement rows for matched actors. -/
theorem processComments_actors (env : Env) (emp : List String) (pid : String)
    (Q : String → Prop) (hQ : ∀ a, emp.contains a = true → Q a) :
    ∀ evs db e, (∀ row ∈ db.engagements, Q row.userSub) →
      ∀ row ∈ ((processComments env emp pid evs db e).db).engagements, Q row.userSub := by
  intro evs
  induction evs with
  | nil => intro db e hdb; exact hdb
  | cons c rest ih =>
    intro db e hdb
    cases hc : emp.contains c.actor with
    | true =>
      cases hw : env.engWriteFail pid c.actor "COMMENT" with
      | some msg =>
        simp only [processComments, hc, hw, if_true]
        exact hdb
      | none =>
        simp only [processComments, hc, hw, if_true]
        exact ih _ _ (upsertEngagement_userSub env.now db pid c.actor "COMMENT"
          none c.messageText c.createdTime Q hdb (hQ c.actor hc))
    | false =>
      simp only [processComments, hc, Bool.false_eq_true, if_false]
      exact ih db e hdb

/-- The live per-post loop only ever writes engagement rows for matched
actors. -/
theorem processLivePosts_actors (env : Env) (emp : List String)
    (Q : String → Prop) (hQ : ∀ a, emp.contains a = true → Q a) :
    ∀ posts db p e, (∀ row ∈ db.engagements, Q row.userSub) →
      ∀ row ∈ ((processLivePosts env emp posts db p e).db).engagements, Q row.userSub := by
  intro posts
  induction posts with
  | nil => intro db p e hdb; exact hdb
  | cons post rest ih =>
    intro db p e hdb
    cases hw : env.postWriteFail post.id with
    | some msg =>
      simp only [processLivePosts, hw]
      exact hdb
    | none =>
      simp only [processLivePosts, hw]
      have hdb1 : ∀ row ∈ (upsertPost env.now db post).engagements, Q row.userSub := by
        rw [upsertPost_engagements]
        exact hdb
      have h2 := processReactions_actors env emp post.id Q hQ
        (fetchReactions env post.id) (upsertPost env.now db post) e hdb1
      cases hr : processReactions env emp post.id (fetchReactions env post.id)
          (upsertPost env.now db post) e with
      | fail db2 e2 msg =>
        simp only [hr]
        rw [hr] at h2
        exact h2
      | ok db2 e2 =>
        simp only [hr]
        rw [hr] at h2
        have h3 := processComments_actors env emp post.id Q hQ
          (fetchComments env post.id) db2 e2 h2
        cases hcm : processComments env emp post.id (fetchComments env post.id) db2 e2 with
        | fail db3 e3 msg =>
          simp only [hcm]
          rw [hcm] at h3
          exact h3
        | ok db3 e3 =>
          simp only [hcm]
          rw [hcm] at h3
          exact ih db3 (p + 1) e3 h3

/-- A live run body only ever writes engagement rows for actors in the
identity snapshot. -/
theorem runBody_actors (env : Env) (db : DB) (Q : String → Prop)
    (hQ : ∀ a, (getEmployeeUrns db).contains a = true → Q a)
    (hmock : env.mockMode = false)
    (hdb : ∀ row ∈ db.engagements, Q row.userSub) :
    ∀ row ∈ ((runBody env db).db).engagements, Q row.userSub := by
  simp only [runBody, hmock, Bool.false_eq_true, if_false]
  by_cases hc : (!hasAdminTokenConfigured env) = true
  · rw [if_pos hc]
    exact hdb
  · rw [if_neg hc]
    have heng := getAdminToken_engagements env db
    cases htk : getAdminToken env db with
    | mk outcome rest =>
      cases rest with
      | mk db1 n =>
        rw [htk] at heng
        have hdb1 : ∀ row ∈ db1.engagements, Q row.userSub := by
          intro row hrow
          exact hdb row (heng ▸ hrow)
        cases outcome with
        | error msg => exact hdb1
        | ok tok =>
          dsimp only
          cases hfp : fetchPosts env with
          | error msg => exact hdb1
          | ok posts =>
            dsimp only
            exact processLivePosts_actors env (getEmployeeUrns db) Q hQ posts db1 0 0 hdb1

/-- The engagement table of the store returned by `runFullSync` is the one
produced by the run body (the log update never touches it). -/
theorem runFullSync_engagements (env : Env) (db : DB) :
    (runFullSync env db).2.engagements =
      ((runBody env (createSyncLog env.now db "RUNNING").2).db).engagements := by
  cases hb : runBody env (createSyncLog env.now db "RUNNING").2 with
  | ok db1 p e => simp only [runFullSync, hb]; rfl
  | fail db1 p e msg => simp only [runFullSync, hb]; rfl

/-- Claim C7: the Engagement Matcher is the pure order-preserving filter
`matchSpec` (a function with no side effects): it keeps exactly the events
whose actor is a member of the identity set, is a sublist of its input
(relative order preserved), and returns the empty sequence on the empty
identity set.  The live per-post loops realize it: with a working store the
engagement counter grows by exactly the number of matched events, and a live
run never writes an engagement row for an actor outside the identity set. -/
theorem matcher_filters (env : Env) (db : DB) :
    (∀ evs : List ReactionEv, matchSpec ReactionEv.actor evs [] = []) ∧
    (∀ evs : List CommentEv, matchSpec CommentEv.actor evs [] = []) ∧
    (∀ (evs : List ReactionEv) (emp : List String),
      (matchSpec ReactionEv.actor evs emp).Sublist evs ∧
      (∀ ev, ev ∈ matchSpec ReactionEv.actor evs emp ↔
        ev ∈ evs ∧ emp.contains ev.actor = true)) ∧
    (∀ (evs : List CommentEv) (emp : List String),
      (matchSpec CommentEv.actor evs emp).Sublist evs ∧
      (∀ ev, ev ∈ matchSpec CommentEv.actor evs emp ↔
        ev ∈ evs ∧ emp.contains ev.actor = true)) ∧
    ((∀ a b c, env.engWriteFail a b c = none) →
      ∀ (pid : String) (emp : List String) (evs : List ReactionEv) (d : DB) (e : Nat),
        ∃ d2, processReactions env emp pid evs d e =
          .ok d2 (e + (matchSpec ReactionEv.actor evs emp).length)) ∧
    (env.mockMode = false →
      ∀ row ∈ (runFullSync env db).2.engagements,
        row.userSub ∈ db.engagements.map (fun r => r.userSub) ∨
        (getEmployeeUrns db).contains row.userSub = true) := by
  refine ⟨?_, ?_, ?_, ?_, ?_, ?_⟩
  · intro evs
    simp [matchSpec]
  · intro evs
    simp [matchSpec]
  · intro evs emp
    refine ⟨List.filter_sublist _, fun ev => ?_⟩
    simp [matchSpec, List.mem_filter]
  · intro evs emp
    refine ⟨List.filter_sublist _, fun ev => ?_⟩
    simp [matchSpec, List.mem_filter]
  · intro hnoef pid emp evs d e
    exact processReactions_count env emp pid hnoef evs d e
  · intro hmock row hrow
    rw [runFullSync_engagements] at hrow
    exact runBody_actors env (createSyncLog env.now db "RUNNING").2
      (fun a => a ∈ db.engagements.map (fun r => r.userSub) ∨
        (getEmployeeUrns db).contains a = true)
      (fun a ha => Or.inr ha) hmock
      (fun r hr => Or.inl (List.mem_map_of_mem _ hr)) row hrow

/-- Concrete instance of `matcher_filters`: the empty identity set filters
everything out, and the live run of `envC2` only wrote rows for internal
actors. -/
theorem matcher_filters_witness :
    matchSpec ReactionEv.actor [⟨"u1", some "LIKE", some 5⟩] [] = [] ∧
    (∀ row ∈ (runFullSync envC2 dbC2).2.engagements,
      row.userSub ∈ dbC2.engagements.map (fun r => r.userSub) ∨
      (getEmployeeUrns dbC2).contains row.userSub = true) :=
  ⟨(matcher_filters envC2 dbC2).1 _,
   (matcher_filters envC2 dbC2).2.2.2.2.2 rfl⟩

/-- Claim C8: with live mode and no delegated-credential configuration, the
sync trigger answers the structured 400 "not configured" response without
running a sync: the store is returned unchanged, so no Run Log row is
created and none is left in RUNNING state by the call. -/
theorem syncTrigger_not_configured (env : Env) (db : DB)
    (hmock : env.mockMode = false)
    (hcfg : hasAdminTokenConfigured env = false) :
    (syncTriggerRoute env db).1.status = 400 ∧
    (syncTriggerRoute env db).1.error =
      some "LinkedIn API credentials not configured. Enable LINKEDIN_MOCK_MODE=true for testing." ∧
    (syncTriggerRoute env db).1.ok = none ∧
    (syncTriggerRoute env db).2 = db ∧
    (syncTriggerRoute env db).2.syncLogs = db.syncLogs := by
  have h : (!env.mockMode && !hasAdminTokenConfigured env) = true := by
    rw [hmock, hcfg]
    rfl
  have hroute : syncTriggerRoute env db =
      ({ status := 400, ok := none, message := none
         error := some "LinkedIn API credentials not configured. Enable LINKEDIN_MOCK_MODE=true for testing."
         postsProcessed := none, engagementsFound := none, mockMode := none }, db) := by
    rw [syncTriggerRoute, if_pos h]
  rw [hroute]
  exact ⟨rfl, rfl, rfl, rfl, rfl⟩

/-- Concrete instance of `syncTrigger_not_configured`. -/
theorem syncTrigger_not_configured_witness :
    (syncTriggerRoute envC8 dbEmpty).1.status = 400 ∧
    (syncTriggerRoute envC8 dbEmpty).2.syncLogs = dbEmpty.syncLogs :=
  ⟨(syncTrigger_not_configured envC8 dbEmpty rfl rfl).1,
   (syncTrigger_not_configured envC8 dbEmpty rfl rfl).2.2.2.2⟩

/-- Claim C9: in live mode with a valid token, a posts-listing response
whose transport succeeds but whose body has no `elements` array makes
`fetchPosts` return the empty list instead of failing; the run then
completes with status SUCCESS and both counters zero. -/
theorem runFullSync_no_elements (env : Env) (db : DB) (t : AdminToken) (body : PostsBody)
    (hmock : env.mockMode = false)
    (hcfg : hasAdminTokenConfigured env = true)
    (hcred : db.adminTokens = some t)
    (hvalid : ¬(t.expiresAt < env.now))
    (hresp : env.postsResponse = .ok body)
    (helems : body.elements = none) :
    fetchPosts env = .ok [] ∧
    (runFullSync env db).1 = { success := true, error := none, postsProcessed := 0, engagementsFound := 0 } ∧
    (∀ row ∈ (runFullSync env db).2.syncLogs, row.id = db.nextLogId →
      row.status = "SUCCESS" ∧ row.completedAt = some env.now) := by
  have hfp : fetchPosts env = .ok [] := by
    simp [fetchPosts, hresp, helems]
  have hcred0 : ((createSyncLog env.now db "RUNNING").2).adminTokens = some t := hcred
  have htok := getAdminToken_valid env (createSyncLog env.now db "RUNNING").2 t hcred0 hvalid
  have hrb : runBody env (createSyncLog env.now db "RUNNING").2 =
      .ok (createSyncLog env.now db "RUNNING").2 0 0 := by
    simp only [runBody, hmock, hcfg, htok, hfp, Bool.not_true, Bool.false_eq_true,
      if_false, processLivePosts]
  have hrun : runFullSync env db =
      ({ success := true, error := none, postsProcessed := 0, engagementsFound := 0 },
       updateSyncLog env.now (createSyncLog env.now db "RUNNING").2 db.nextLogId
         "SUCCESS" 0 0 none) := by
    simp only [runFullSync, hrb]
    rfl
  refine ⟨hfp, by rw [hrun], ?_⟩
  intro row hrow hid
  rw [hrun] at hrow
  have hf := updateSyncLog_rows env.now (createSyncLog env.now db "RUNNING").2 db.nextLogId
    "SUCCESS" 0 0 none row hrow hid
  exact ⟨hf.1, hf.2.2.2.2⟩

/-- Concrete instance of `runFullSync_no_elements`. -/
theorem runFullSync_no_elements_witness :
    fetchPosts envC9 = .ok [] ∧
    (runFullSync envC9 dbC9).1 = { success := true, error := none, postsProcessed := 0, engagementsFound := 0 } :=
  ⟨(runFullSync_no_elements envC9 dbC9
      { accessToken := "tok", refreshToken := none, expiresAt := 200, updatedAt := 0 }
      { elements := none } rfl rfl rfl (by decide) rfl rfl).1,
   (runFullSync_no_elements envC9 dbC9
      { accessToken := "tok", refreshToken := none, expiresAt := 200, updatedAt := 0 }
      { elements := none } rfl rfl rfl (by decide) rfl rfl).2.1⟩

